import Mathlib

/-!
Verification of the graphorm Cypher-query compiler against its
natural-language specification.

The definitions below are a shallow embedding of the compiler core of the
repository: `graphorm/utils.py` (literal formatting), `graphorm/expression.py`
(expression serialization), `graphorm/property.py` (field references),
`graphorm/variable_length.py` (variable-length edge descriptors),
`graphorm/select.py` (the `Statement`/`Select` builders) and
`graphorm/delete.py` (the `Delete` builder).

Python's dynamically typed values are embedded as inductive types covering
the value kinds the compiler manipulates (classes, aliased classes, strings,
triples, variable-length descriptors, expression trees).  Python `dict`s are
embedded as insertion-ordered association lists with overwrite-in-place
update, matching CPython semantics.  Stateful methods (which mutate
`self._params`, `self._alias_map`, `self._return_clauses`) are embedded as
functions returning the updated state.
-/

/-- Python values as they occur in parameters and literals:
`None`, `bool`, `int`, `str`, `list`, `dict`. -/
inductive Value where
  | null : Value
  | bool (b : Bool) : Value
  | int (n : Int) : Value
  | str (s : String) : Value
  | list (vs : List Value) : Value
  | dict (kvs : List (String × Value)) : Value

/-- Python truthiness of a `Value` (`bool(v)`). -/
def pyTruthy : Value → Bool
  | .null => false
  | .bool b => b
  | .int n => n != 0
  | .str s => s ≠ ""
  | .list vs => !vs.isEmpty
  | .dict kvs => !kvs.isEmpty

/-- Whether a `Value` is a Python `str` (`isinstance(v, str)`). -/
def Value.isStr : Value → Bool
  | .str _ => true
  | _ => false

mutual
/-- Python `repr(v)`, used by `str()` on lists and dicts.  String values are
modelled for apostrophe-free contents (Python would switch quote style
otherwise); no claim exercises that corner. -/
def pyRepr : Value → String
  | .null => "None"
  | .bool b => if b then "True" else "False"
  | .int n => toString n
  | .str s => "\x27" ++ s ++ "\x27"
  | .list vs => "[" ++ pyReprJoin vs ++ "]"
  | .dict kvs => "\x7b" ++ pyReprJoinKV kvs ++ "\x7d"

/-- Comma-space-joined `repr`s of list elements. -/
def pyReprJoin : List Value → String
  | [] => ""
  | [v] => pyRepr v
  | v :: vs => pyRepr v ++ ", " ++ pyReprJoin vs

/-- Comma-space-joined `repr`s of dict entries. -/
def pyReprJoinKV : List (String × Value) → String
  | [] => ""
  | [(k, v)] => "\x27" ++ k ++ "\x27: " ++ pyRepr v
  | (k, v) :: kvs => "\x27" ++ k ++ "\x27: " ++ pyRepr v ++ ", " ++ pyReprJoinKV kvs
end

/-- Python `str(v)`. -/
def pyStr : Value → String
  | .null => "None"
  | .bool b => if b then "True" else "False"
  | .int n => toString n
  | .str s => s
  | .list vs => "[" ++ pyReprJoin vs ++ "]"
  | .dict kvs => "\x7b" ++ pyReprJoinKV kvs ++ "\x7d"

/-- Insertion-ordered association list standing for a Python `dict`:
`d[k] = v` overwrites in place when the key exists, else appends. -/
def pyDictSet {κ α : Type} [BEq κ] (d : List (κ × α)) (k : κ) (v : α) :
    List (κ × α) :=
  if d.any (fun kv => kv.1 == k) then
    d.map (fun kv => if kv.1 == k then (k, v) else kv)
  else d ++ [(k, v)]

/-- Python `d.get(k)` / `k in d` lookup. -/
def pyDictGet? {κ α : Type} [BEq κ] (d : List (κ × α)) (k : κ) : Option α :=
  (d.find? (fun kv => kv.1 == k)).map (fun kv => kv.2)

/-- Python `d.update(e)`: set every entry of `e` into `d`, in order. -/
def pyDictUpdate {κ α : Type} [BEq κ] (d e : List (κ × α)) : List (κ × α) :=
  e.foldl (fun acc kv => pyDictSet acc kv.1 kv.2) d

/-- Python `s.lower()` for the ASCII class names the compiler lower-cases
(structural char-by-char mapping). -/
def py_lower (s : String) : String :=
  String.mk (s.data.map Char.toLower)

/-- Parameter sink `self._params` (`dict[str, Any]`). -/
abbrev Params := List (String × Value)

/-- Python `s.replace(old, new)` for a single-character needle: every
occurrence of the character is replaced (single-character occurrences are
trivially non-overlapping, so this is exactly CPython's `str.replace`). -/
def py_replace_char (s : String) (c : Char) (r : String) : String :=
  s.data.foldr
    (fun ch acc => (if ch = c then r else String.singleton ch) ++ acc) ""

/-- `quote_string` from `graphorm/utils.py`: the empty string renders as a
bare pair of double quotes; otherwise backslashes and then double quotes are
escaped (two sequential single-character `str.replace` passes, as in the
source) and the result is wrapped in double quotes.  (The `bytes` branch is
outside the embedded value universe; the non-`str` passthrough is handled at
the single call site in `format_cypher_value`, which only calls this on
strings.) -/
def quote_string (v : String) : String :=
  if v.length = 0 then "\x22\x22"
  else "\x22" ++
    py_replace_char (py_replace_char v (Char.ofNat 92) "\\\\") (Char.ofNat 34) "\\\x22"
    ++ "\x22"

mutual
/-- `format_cypher_value` from `graphorm/utils.py`. -/
def format_cypher_value : Value → String
  | .bool b => if b then "true" else "false"
  | .str s => quote_string s
  | .null => "null"
  | .list vs => "[" ++ formatValueJoin vs ++ "]"
  | .dict kvs => "\x7b" ++ formatValueJoinKV kvs ++ "\x7d"
  | .int n => toString n

/-- `",".join(map(format_cypher_value, value))`. -/
def formatValueJoin : List Value → String
  | [] => ""
  | [v] => format_cypher_value v
  | v :: vs => format_cypher_value v ++ "," ++ formatValueJoin vs

/-- `",".join(f"{k}:{format_cypher_value(v)}" for k, v in value.items())`. -/
def formatValueJoinKV : List (String × Value) → String
  | [] => ""
  | [(k, v)] => k ++ ":" ++ format_cypher_value v
  | (k, v) :: kvs => k ++ ":" ++ format_cypher_value v ++ "," ++ formatValueJoinKV kvs
end

/-- Metadata of a declared `Node`/`Edge` subclass as the compiler reads it:
`__name__`, optional `__label__` override, presence of `__labels__`
(set by `Node.__init_subclass__`), optional `__relation_name__` override and
the `__relation__` attribute (set by `Edge.__init_subclass__`).  `cid` is the
Python object identity of the class, used as the alias-map dict key. -/
structure BaseCls where
  cid : Nat
  name : String
  label : Option String
  hasLabels : Bool
  relationName : Option String
  relation : Option String
deriving Repr, DecidableEq

/-- A class value appearing in a statement: either a declared class, or an
aliased subclass produced by `aliased()` / `.alias()` (which carries `_alias`,
has the declared class as `__bases__[0]`, and has `__name__` prefixed with
`Aliased`). -/
inductive Cls where
  | base (b : BaseCls)
  | aliasedCls (cid : Nat) (b : BaseCls) (a : String)
deriving Repr, DecidableEq

/-- Python object identity of the class (alias-map dict key). -/
def Cls.idOf : Cls → Nat
  | .base b => b.cid
  | .aliasedCls cid _ _ => cid

/-- The `_alias` attribute if present (`hasattr(entity, "_alias")`). -/
def Cls.aliasAttr : Cls → Option String
  | .base _ => none
  | .aliasedCls _ _ a => some a

/-- The class `__name__` (aliased classes are renamed `Aliased<name>`). -/
def Cls.pyName : Cls → String
  | .base b => b.name
  | .aliasedCls _ b _ => "Aliased" ++ b.name

/-- Whether `hasattr(cls, "__labels__")` holds (inherited by aliased
subclasses and explicitly copied by `aliased()`). -/
def Cls.hasLabelsAttr : Cls → Bool
  | .base b => b.hasLabels
  | .aliasedCls _ b _ => b.hasLabels

/-- Whether `hasattr(cls, "__relation__")` holds (inherited). -/
def Cls.relationAttr : Cls → Option String
  | .base b => b.relation
  | .aliasedCls _ b _ => b.relation

/-- Alias map `self._alias_map` / local `alias_map`: a dict keyed by class
identity. -/
abbrev AliasMap := List (Nat × String)

/-- A variable-length edge descriptor (`graphorm/variable_length.py`).
Hop counts are Python ints (possibly negative before validation). -/
structure VariableLength where
  edge_class : Cls
  min_hops : Option Int
  max_hops : Option Int
deriving Repr, DecidableEq

/-- A Python error raised by the embedded code (`ValueError` is the only
exception class the embedded constructors raise). -/
inductive PyErr where
  | valueError (msg : String)
deriving Repr, DecidableEq

/-- `VariableLength.__init__` from `graphorm/variable_length.py`: rejects
negative bounds and inverted bounds with `ValueError`. -/
def variable_length_init (edge_class : Cls) (min_hops max_hops : Option Int) :
    Except PyErr VariableLength :=
  if min_hops.any (fun m => m < 0) then
    .error (.valueError "min_hops must be >= 0")
  else if max_hops.any (fun m => m < 0) then
    .error (.valueError "max_hops must be >= 0")
  else if ((match min_hops, max_hops with
           | some mn, some mx => decide (mn > mx)
           | _, _ => false) : Bool) then
    .error (.valueError "min_hops must be <= max_hops")
  else .ok ⟨edge_class, min_hops, max_hops⟩

/-- `Edge.__init_subclass__` from `graphorm/edge.py`: when an explicit
`__relation_name__` override is present it must be a truthy `str`, otherwise
`ValueError` is raised; the resulting class carries `__relation__`.
The returned `BaseCls` has no `__labels__` and no `__label__`. -/
def edge_init_subclass (cid : Nat) (name : String)
    (relationNameAttr : Option Value) : Except PyErr BaseCls :=
  match relationNameAttr with
  | some v =>
    if !pyTruthy v || !v.isStr then
      .error (.valueError ("__relation_name__ must be a non-empty string for class " ++ name))
    else
      .ok { cid := cid, name := name, label := none, hasLabels := false,
            relationName := some (pyStr v), relation := some (pyStr v) }
  | none =>
      .ok { cid := cid, name := name, label := none, hasLabels := false,
            relationName := none, relation := some name }

/-- A match item as stored in `_match_clauses` (after the `match()` /
`optional_match()` wrapping has been stripped): a class, a raw string, a
`VariableLength` descriptor, or a 3-tuple pattern whose slots are again
match items. -/
inductive MItem where
  | cls (c : Cls)
  | str (s : String)
  | varLen (v : VariableLength)
  | triple (src edge dst : MItem)

/-- An entry of `self._match_clauses`: a plain pattern, an
`("OPTIONAL", entity)` tuple, or a `("RAW", string)` tuple. -/
inductive MatchClause where
  | plain (m : MItem)
  | optionalM (m : MItem)
  | raw (s : String)

/-- `Statement._get_label_from_class`: explicit `__label__` wins over
`__name__`. -/
def get_label_from_class (b : BaseCls) : String :=
  match b.label with
  | some l => l
  | none => b.name

/-- `Statement._get_relation_from_class`: `__relation_name__`, else
`__relation__`, else `__name__`.  Attribute lookup is by inheritance, so an
aliased edge class sees its base's overrides but its own `Aliased` name. -/
def get_relation_from_class (c : Cls) : String :=
  match c with
  | .base b =>
    match b.relationName with
    | some r => r
    | none => match b.relation with
      | some r => r
      | none => b.name
  | .aliasedCls _ b _ =>
    match b.relationName with
    | some r => r
    | none => match b.relation with
      | some r => r
      | none => "Aliased" ++ b.name

/-- `Statement._get_alias_for_entity`: `_alias` if present, else the
lower-cased class name for classes, else the literal fallback `"n"`. -/
def get_alias_for_entity : MItem → String
  | .cls (.aliasedCls _ _ a) => a
  | .cls (.base b) => py_lower b.name
  | _ => "n"

/-- `Statement._variable_length_edge_to_pattern`: lowers a `VariableLength`
descriptor to `[:RELATION<suffix>]`. -/
def variable_length_edge_to_pattern (v : VariableLength) : String :=
  let relation := get_relation_from_class v.edge_class
  let suffix :=
    match v.min_hops, v.max_hops with
    | none, none => "*"
    | some mn, some mx =>
      if mn = mx then "*" ++ toString mn
      else "*" ++ toString mn ++ ".." ++ toString mx
    | some mn, none => "*" ++ toString mn ++ ".."
    | none, some _ => "*"
  "[:" ++ relation ++ suffix ++ "]"

/-- `Statement._edge_to_match_pattern`: a `VariableLength` descriptor, an
aliased edge class (`[alias:RELATION]`, relation taken from the base class),
or a class with `__relation__` (`[default_alias:RELATION]`); anything else
yields `None`. -/
def edge_to_match_pattern : MItem → Option String
  | .varLen v => some (variable_length_edge_to_pattern v)
  | .cls (.aliasedCls _ b a) =>
    some ("[" ++ a ++ ":" ++ get_relation_from_class (.base b) ++ "]")
  | .cls (.base b) =>
    match b.relation with
    | some rel => some ("[" ++ py_lower b.name ++ ":" ++ rel ++ "]")
    | none => none
  | _ => none

/-- `Select._entity_to_match_pattern` (same algorithm as the `Statement`
version): triples join as `src-edge->dst` when all three lower to truthy
text; an aliased class lowers to `(alias:Label)` with the label read from
its base class; a class with `__labels__` lowers to
`(default_alias:Label)`; strings pass through; anything else yields `None`. -/
def entity_to_match_pattern : MItem → Option String
  | .triple src edge dst =>
    let sp := entity_to_match_pattern src
    let ep := edge_to_match_pattern edge
    let dp := entity_to_match_pattern dst
    match sp, ep, dp with
    | some s, some e, some d =>
      if s ≠ "" ∧ e ≠ "" ∧ d ≠ "" then some (s ++ "-" ++ e ++ "->" ++ d)
      else none
    | _, _, _ => none
  | .cls (.aliasedCls _ b a) =>
    some ("(" ++ a ++ ":" ++ get_label_from_class b ++ ")")
  | .cls (.base b) =>
    if b.hasLabels then
      some ("(" ++ py_lower b.name ++ ":" ++ get_label_from_class b ++ ")")
    else none
  | .str s => some s
  | .varLen _ => none

/-- Truthiness of an optional pattern string (`if pattern:`). -/
def patTruthy : Option String → Bool
  | none => false
  | some s => s ≠ ""

/-- `Statement._add_to_alias_map`: an aliased class registers both itself and
its base class under its `_alias`; a plain class with `__labels__` or
`__relation__` registers under its default alias; anything else is ignored. -/
def add_to_alias_map (e : MItem) (m : AliasMap) : AliasMap :=
  match e with
  | .cls (.aliasedCls cid b a) => pyDictSet (pyDictSet m cid a) b.cid a
  | .cls (.base b) =>
    if b.hasLabels || b.relation.isSome then
      pyDictSet m b.cid (get_alias_for_entity (.cls (.base b)))
    else m
  | _ => m

/-- `Statement._build_alias_map_from_match_clauses`: walk the clauses,
unwrap `OPTIONAL`, skip `RAW`; triples contribute src and dst (and the edge
when `include_edges` and the edge is not a `VariableLength`), other items
contribute themselves. -/
def build_alias_map_from_match_clauses (include_edges : Bool)
    (clauses : List MatchClause) : AliasMap :=
  clauses.foldl (fun m mc =>
    match mc with
    | .raw _ => m
    | .plain item | .optionalM item =>
      match item with
      | .triple src edge dst =>
        let m1 := add_to_alias_map dst (add_to_alias_map src m)
        if include_edges then
          match edge with
          | .varLen _ => m1
          | _ => add_to_alias_map edge m1
        else m1
      | _ => add_to_alias_map item m) []

/-- A `Property` descriptor as obtained from class-attribute access
(`graphorm/property.py`): it is bound to the owner class (`node_class`) and
a field name, with an optional `_alias` set via `set_alias`. -/
structure PropertyRef where
  node_class : Cls
  name : String
  palias : Option String
deriving Repr, DecidableEq

/-- `Property._get_default_alias`: the owner's `_alias` when present, else
its lower-cased `__name__`.  (The `node_class is None` fallback `"n"` is
unreachable here because descriptors are always bound to a class.) -/
def property_get_default_alias (c : Cls) : String :=
  match c.aliasAttr with
  | some a => a
  | none => py_lower c.pyName

/-- `Property.to_cypher(alias_map=...)` from `graphorm/property.py` (the
positional `alias` argument is never passed by the compiler): a truthy
(non-empty) `alias_map` that contains the owner class wins, then the
property's own `_alias`, then the owner's default alias. -/
def property_to_cypher (p : PropertyRef) (alias_map : AliasMap) : String :=
  let node_alias :=
    match (if !alias_map.isEmpty then pyDictGet? alias_map p.node_class.idOf
           else none) with
    | some a => a
    | none =>
      match p.palias with
      | some a => a
      | none => property_get_default_alias p.node_class
  node_alias ++ "." ++ p.name

/-- An argument of a `Function` call: a `Property`, a class, or any other
value (serialized via `str`). -/
inductive FArg where
  | propA (p : PropertyRef)
  | clsA (c : Cls)
  | val (v : Value)

/-- A `Function` expression (`graphorm/expression.py`): the name is already
upper-cased by `Function.__init__`; `_label` is present after `.label()`. -/
structure Func where
  name : String
  args : List FArg
  flabel : Option String

/-- `Function.to_cypher(alias_map=...)`: arguments with `to_cypher` are
serialized with the alias map when it is truthy; class arguments resolve
through the alias map or fall back to their lower-cased `__name__`; other
arguments go through `str`.  `AS <label>` is appended whenever `_label`
exists. -/
def function_to_cypher (f : Func) (alias_map : AliasMap) : String :=
  let format_arg := fun (a : FArg) =>
    match a with
    | .propA p =>
      if !alias_map.isEmpty then property_to_cypher p alias_map
      else property_to_cypher p []
    | .clsA c =>
      match pyDictGet? alias_map c.idOf with
      | some al => al
      | none => py_lower c.pyName
    | .val v => pyStr v
  let args_str := ", ".intercalate (f.args.map format_arg)
  let result := f.name ++ "(" ++ args_str ++ ")"
  match f.flabel with
  | some l => result ++ " AS " ++ l
  | none => result

/-- The left operand of a `BinaryExpression`: a `Property` (has `to_cypher`
and `node_class`), a `Function` (has `to_cypher`, no `node_class`), or any
other value (serialized via `str`). -/
inductive BLeft where
  | propL (p : PropertyRef)
  | fnL (f : Func)
  | val (v : Value)

/-- Serialization of the left operand inside `BinaryExpression.to_cypher`:
a `Property` is called with the alias map, a `Function` is called with no
arguments (hence an empty alias map), anything else is `str`-ed. -/
def binary_left_str (l : BLeft) (alias_map : AliasMap) : String :=
  match l with
  | .propL p => property_to_cypher p alias_map
  | .fnL f => function_to_cypher f []
  | .val v => pyStr v

/-- Expression trees built from `BinaryExpression`, `AndExpression` and
`OrExpression` (`graphorm/expression.py`).  An `OrExpression` whose right
side is `None` (`orSingle`) serializes as its left side alone. -/
inductive BExpr where
  | bin (left : BLeft) (op : String) (right : Value)
  | andE (l r : BExpr)
  | orE (l r : BExpr)
  | orSingle (l : BExpr)

/-- The generated parameter name `f"param_{n}"`. -/
def param_name (n : Nat) : String :=
  "param_" ++ Nat.repr n

/-- `BinaryExpression._add_param_to_dict`: the generated name is
`param_<len(params)>` and the value is stored under it. -/
def add_param_to_dict (value : Value) (params : Params) : String × Params :=
  (param_name params.length, pyDictSet params (param_name params.length) value)

/-- `to_cypher` of `BinaryExpression` / `AndExpression` / `OrExpression`:
`IS NULL` / `IS NOT NULL` emit no parameter; every other operator pushes the
right operand into `params` and references `$param_N`; `AND`/`OR` wrap both
sides in parentheses.  Python mutates `params` in place, modelled by
threading it through. -/
def bexpr_to_cypher : BExpr → Params → AliasMap → String × Params
  | .bin left op right, params, alias_map =>
    let left_str := binary_left_str left alias_map
    if op = "IN" then
      let (pn, ps) := add_param_to_dict right params
      (left_str ++ " IN $" ++ pn, ps)
    else if op = "NOT IN" then
      let (pn, ps) := add_param_to_dict right params
      (left_str ++ " NOT IN $" ++ pn, ps)
    else if op = "=~" then
      let (pn, ps) := add_param_to_dict right params
      (left_str ++ " =~ $" ++ pn, ps)
    else if op = "CONTAINS" then
      let (pn, ps) := add_param_to_dict right params
      (left_str ++ " CONTAINS $" ++ pn, ps)
    else if op = "STARTS WITH" then
      let (pn, ps) := add_param_to_dict right params
      (left_str ++ " STARTS WITH $" ++ pn, ps)
    else if op = "ENDS WITH" then
      let (pn, ps) := add_param_to_dict right params
      (left_str ++ " ENDS WITH $" ++ pn, ps)
    else if op = "IS NULL" then
      (left_str ++ " IS NULL", params)
    else if op = "IS NOT NULL" then
      (left_str ++ " IS NOT NULL", params)
    else
      let (pn, ps) := add_param_to_dict right params
      (left_str ++ " " ++ op ++ " $" ++ pn, ps)
  | .andE l r, params, alias_map =>
    let (ls, p1) := bexpr_to_cypher l params alias_map
    let (rs, p2) := bexpr_to_cypher r p1 alias_map
    ("(" ++ ls ++ " AND " ++ rs ++ ")", p2)
  | .orSingle l, params, alias_map => bexpr_to_cypher l params alias_map
  | .orE l r, params, alias_map =>
    let (ls, p1) := bexpr_to_cypher l params alias_map
    let (rs, p2) := bexpr_to_cypher r p1 alias_map
    ("(" ++ ls ++ " OR " ++ rs ++ ")", p2)

/-- An entry of a where-clause list: an expression object (has `to_cypher`)
or any other value rendered via `str` (the compiler accepts raw strings). -/
inductive WhereCond where
  | expr (e : BExpr)
  | rawW (s : String)

/-- An `OrderByExpression` (`graphorm/expression.py`): the direction is
upper-cased by the constructor. -/
structure OrderByExpr where
  expression : BLeft
  direction : String

/-- `OrderByExpression.to_cypher(alias_map=...)`: a `Property` or `Function`
expression (both have a `name` attribute) is serialized with the alias map;
other values are `str`-ed; the direction is appended. -/
def order_by_to_cypher (o : OrderByExpr) (alias_map : AliasMap) : String :=
  let expr_str :=
    match o.expression with
    | .propL p => property_to_cypher p alias_map
    | .fnL f => function_to_cypher f alias_map
    | .val v => pyStr v
  expr_str ++ " " ++ o.direction

/-- An entry of the WITH-clause list in the embedded universe: a `Function`
(has `to_cypher` and `name`), a class, or any other value rendered via
`str`.  The `(expression, alias)` tuple form and bare labelled non-function
expressions (which would rebind aliases) are outside the modelled universe;
none of the claims exercise them, so `alias_map_for_with` is always empty
here and `_build_with_clause` leaves the alias maps unchanged. -/
inductive WithItem where
  | fnW (f : Func)
  | clsW (c : Cls)
  | strW (s : String)

/-- An entry of `self._return_clauses`: a `Function`, or a match-item value
(a class, a string such as the wildcard `"*"`, or an auto-derived triple
slot). -/
inductive RetItem where
  | fnR (f : Func)
  | item (m : MItem)

/-- An entry of `self._remove_clauses`: a `Property` (has `to_cypher`) or a
raw value rendered via `str`. -/
inductive RemoveItem where
  | propR (p : PropertyRef)
  | rawR (s : String)

/-- Python `str()` of a match item, used by the `str(expr)` fallbacks of
RETURN/WITH rendering.  For non-class, non-string items (a default-repr
object or a tuple) CPython's output embeds memory addresses; those are
abstracted to a stable tag, and no claim depends on them. -/
def pyStrMItem : MItem → String
  | .cls c => "<class \x27" ++ c.pyName ++ "\x27>"
  | .str s => s
  | .varLen _ => "<VariableLength object>"
  | .triple a b c =>
    "(" ++ pyStrMItem a ++ ", " ++ pyStrMItem b ++ ", " ++ pyStrMItem c ++ ")"

/-- The alias map built from the match clauses with the `_entities`
fallback (`if not alias_map: for entity in self._entities: ...`), as it
appears in `Select.to_cypher`, `Delete.to_cypher` and the RETURN/ORDER BY
phases. -/
def alias_map_with_fallback (include_edges : Bool) (mc : List MatchClause)
    (entities : List MItem) : AliasMap :=
  let m := build_alias_map_from_match_clauses include_edges mc
  if m.isEmpty then
    entities.foldl (fun mm e => add_to_alias_map e mm) m
  else m

/-- The alias map `_build_where_clause` serializes against: the passed one,
or — when it is falsy — one rebuilt from the match clauses. -/
def where_effective_alias_map (mc : List MatchClause) (amArg : AliasMap) :
    AliasMap :=
  if amArg.isEmpty then build_alias_map_from_match_clauses false mc
  else amArg

/-- The pattern-collection loop at the top of `Select.to_cypher` /
`Delete.to_cypher`: returns `(match_patterns, optional_patterns)`.  `RAW`
entries pass through unconditionally; other entries are lowered and kept
only when truthy. -/
def collect_patterns (clauses : List MatchClause) :
    List String × List String :=
  clauses.foldl (fun acc mc =>
    match mc with
    | .optionalM item =>
      match entity_to_match_pattern item with
      | some p => if p ≠ "" then (acc.1, acc.2 ++ [p]) else acc
      | none => acc
    | .raw s => (acc.1 ++ [s], acc.2)
    | .plain item =>
      match entity_to_match_pattern item with
      | some p => if p ≠ "" then (acc.1 ++ [p], acc.2) else acc
      | none => acc) ([], [])

/-- The `match_patterns` list after the backward-compatibility fallback to
`self._entities` (`if not match_patterns and not optional_patterns and
self._entities`), with its truthiness and duplicate checks. -/
def match_patterns_with_fallback (clauses : List MatchClause)
    (entities : List MItem) : List String :=
  let cp := collect_patterns clauses
  if cp.1.isEmpty ∧ cp.2.isEmpty ∧ ¬ entities.isEmpty then
    entities.foldl (fun acc e =>
      match entity_to_match_pattern e with
      | some p => if p ≠ "" ∧ acc.contains p = false then acc ++ [p] else acc
      | none => acc) cp.1
  else cp.1

/-- `Statement._build_where_clause(alias_map, where_clauses)`: empty clause
lists yield no text and leave `params` alone; a falsy (empty) alias map is
replaced by one rebuilt from the match clauses; conditions with `to_cypher`
are serialized against `self._params` (threaded here), others are `str`-ed;
parts are joined with `" AND "` after the `WHERE ` prefix. -/
def build_where_clause (match_clauses : List MatchClause)
    (alias_map_arg : AliasMap) (where_clauses : List WhereCond)
    (params : Params) : String × Params :=
  if where_clauses.isEmpty then ("", params)
  else
    let alias_map := where_effective_alias_map match_clauses alias_map_arg
    let res := where_clauses.foldl (fun (acc : List String × Params) c =>
      match c with
      | .expr e =>
        let (s, ps) := bexpr_to_cypher e acc.2 alias_map
        (acc.1 ++ [s], ps)
      | .rawW s => (acc.1 ++ [s], acc.2)) ([], params)
    ("WHERE " ++ " AND ".intercalate res.1, res.2)

/-- Rendering of one WITH-clause entry inside
`Statement._build_with_clause`. -/
def render_with_item (alias_map : AliasMap) : WithItem → String
  | .fnW f => function_to_cypher f alias_map
  | .clsW c =>
    match c.aliasAttr with
    | some a => a
    | none => get_alias_for_entity (.cls c)
  | .strW s => s

/-- `Statement._build_with_clause`: empty projection list yields no text;
otherwise `WITH ` plus comma-joined parts.  In the embedded `WithItem`
universe `alias_map_for_with` stays empty, so the alias-map updates the
method performs are no-ops. -/
def build_with_clause (with_clauses : List WithItem)
    (alias_map : AliasMap) : String :=
  if with_clauses.isEmpty then ""
  else "WITH " ++ ", ".intercalate (with_clauses.map (render_with_item alias_map))

/-- The RETURN auto-derivation walk of `Select.to_cypher` (lines 580-594):
`OPTIONAL` is unwrapped; a triple contributes its src and dst slots (never
its edge); a single class contributes itself; strings and `RAW` entries
contribute nothing. -/
def auto_return (clauses : List MatchClause) : List RetItem :=
  clauses.foldl (fun acc mc =>
    match mc with
    | .raw _ => acc
    | .plain item | .optionalM item =>
      match item with
      | .triple src _ dst => acc ++ [.item src, .item dst]
      | .cls c => acc ++ [.item (.cls c)]
      | _ => acc) []

/-- The second RETURN fallback of `Select.to_cypher` (lines 600-614):
collect every class mentioned by the match items. -/
def all_matched_entities (clauses : List MatchClause) : List Cls :=
  clauses.foldl (fun acc mc =>
    match mc with
    | .raw _ => acc
    | .plain item | .optionalM item =>
      match item with
      | .triple src _ dst =>
        let acc1 := match src with | .cls c => acc ++ [c] | _ => acc
        (match dst with | .cls c => acc1 ++ [c] | _ => acc1)
      | .cls c => acc ++ [c]
      | _ => acc) []

/-- Rendering of one RETURN-clause entry in `Select.to_cypher`: strings pass
through; a `Function` carrying a truthy label renders as the bare label when
`with_()` was called, else re-serializes; classes render as their alias. -/
def render_return_expr (with_called : Bool) (alias_map : AliasMap) :
    RetItem → String
  | .item (.str s) => s
  | .fnR f =>
    match f.flabel with
    | some l =>
      if l ≠ "" ∧ with_called then l else function_to_cypher f alias_map
    | none => function_to_cypher f alias_map
  | .item (.cls c) =>
    match c.aliasAttr with
    | some a => a
    | none => get_alias_for_entity (.cls c)
  | .item m => pyStrMItem m

/-- Rendering of one REMOVE-clause entry in `Select.to_cypher`. -/
def render_remove_item (alias_map : AliasMap) : RemoveItem → String
  | .propR p => property_to_cypher p alias_map
  | .rawR s => s

/-- The post-WITH MATCH/WHERE phase of `Select.to_cypher` (lines 533-563):
returns the extra clause texts, the updated local alias map, the updated
instance alias map and the updated params. -/
def post_with_phase (mc2 : List MatchClause) (ws3 : List WhereCond)
    (mc : List MatchClause) (alias_map2 inst_map1 : AliasMap)
    (params2 : Params) : List String × AliasMap × AliasMap × Params :=
  if ¬ mc2.isEmpty then
    let cp2 := collect_patterns mc2
    let partsA :=
      (if ¬ cp2.1.isEmpty then
        ["MATCH " ++ ", ".intercalate cp2.1] else [])
      ++ cp2.2.map (fun p => "OPTIONAL MATCH " ++ p)
    let am_after := build_alias_map_from_match_clauses false mc2
    let alias_map3 := pyDictUpdate alias_map2 am_after
    let inst_map2 := pyDictUpdate inst_map1 am_after
    let wam :=
      if ¬ ws3.isEmpty then
        build_where_clause mc alias_map3 ws3 params2
      else ("", params2)
    (partsA ++ (if wam.1 ≠ "" then [wam.1] else []), alias_map3, inst_map2, wam.2)
  else ([], alias_map2, inst_map1, params2)

/-- The RETURN-clause derivation of `Select.to_cypher` (lines 576-620):
when `returns()` was never called and nothing is stored, auto-derive from
the pre-WITH match items, falling back to `_entities`, then to every
matched class, then to the wildcard `"*"`.  The result is also written back
to `self._return_clauses`. -/
def derived_return_clauses (returns_set : Bool) (current : List RetItem)
    (mc : List MatchClause) (entities : List MItem) : List RetItem :=
  let rc1 :=
    if ¬ returns_set ∧ current.isEmpty then
      if ¬ mc.isEmpty then
        let ar := auto_return mc
        if ¬ ar.isEmpty then ar else entities.map RetItem.item
      else entities.map RetItem.item
    else current
  if rc1.isEmpty then
    let ae := all_matched_entities mc
    if ¬ ae.isEmpty then ae.map (fun c => RetItem.item (.cls c))
    else [RetItem.item (.str "*")]
  else rc1

/-- The alias map used by the RETURN and ORDER BY phases of
`Select.to_cypher`: rebuilt with `include_edges=True` (with the `_entities`
fallback) unless `with_()` or a post-WITH `match()` was used, in which case
the flowing alias map is kept. -/
def return_phase_alias_map (with_called : Bool) (mc2 mc : List MatchClause)
    (entities : List MItem) (alias_map3 : AliasMap) : AliasMap :=
  if ¬ (with_called ∨ ¬ mc2.isEmpty) then
    alias_map_with_fallback true mc entities
  else alias_map3

/-- The mutable state of a `Select` statement: the accumulator lists filled
by the fluent builder methods plus the instance-level `_params`,
`_alias_map`, `_return_clauses` that `to_cypher` mutates. -/
structure SelectState where
  entities : List MItem
  match_clauses : List MatchClause
  where_clauses : List WhereCond
  where_after_with : List WhereCond
  match_clauses_after_with : List MatchClause
  where_after_match_after_with : List WhereCond
  with_clauses : List WithItem
  params : Params
  alias_map : AliasMap
  with_called : Bool
  return_clauses : List RetItem
  order_by_clauses : List OrderByExpr
  limit_value : Option Int
  skip_value : Option Int
  remove_clauses : List RemoveItem
  distinct : Bool
  returns_explicitly_set : Bool

/-- A freshly constructed `Select()` with everything empty. -/
def freshSelect : SelectState where
  entities := []
  match_clauses := []
  where_clauses := []
  where_after_with := []
  match_clauses_after_with := []
  where_after_match_after_with := []
  with_clauses := []
  params := []
  alias_map := []
  with_called := false
  return_clauses := []
  order_by_clauses := []
  limit_value := none
  skip_value := none
  remove_clauses := []
  distinct := false
  returns_explicitly_set := false

/-- `Select.to_cypher` from `graphorm/select.py`, phase by phase: lower
match/optional-match patterns (with the `_entities` fallback), build the
alias map and merge it into `self._alias_map`, serialize pre-WITH WHERE,
WITH (after which the local alias map is re-read from the instance map),
post-WITH WHERE, post-WITH MATCH plus its WHERE, REMOVE, the auto-derived
or stored RETURN, ORDER BY, SKIP and LIMIT, joining all parts with single
spaces.  Returns the query text together with the mutated statement state.
The ORDER BY phase re-derives the same alias map expression as the RETURN
phase (the source recomputes it verbatim), shared here as `ret_alias_map`. -/
def select_to_cypher (st : SelectState) : String × SelectState :=
  let cp := collect_patterns st.match_clauses
  let match_patterns := match_patterns_with_fallback st.match_clauses st.entities
  let parts1 :=
    (if ¬ match_patterns.isEmpty then
      ["MATCH " ++ ", ".intercalate match_patterns] else [])
    ++ cp.2.map (fun p => "OPTIONAL MATCH " ++ p)
  let alias_map1 := alias_map_with_fallback false st.match_clauses st.entities
  let inst_map1 := pyDictUpdate st.alias_map alias_map1
  let wb := build_where_clause st.match_clauses alias_map1 st.where_clauses st.params
  let parts2 := parts1 ++ (if wb.1 ≠ "" then [wb.1] else [])
  let with_str := build_with_clause st.with_clauses alias_map1
  let parts3 := parts2 ++ (if with_str ≠ "" then [with_str] else [])
  let alias_map2 := if with_str ≠ "" then inst_map1 else alias_map1
  let waw := build_where_clause st.match_clauses alias_map2 st.where_after_with wb.2
  let parts4 := parts3 ++ (if waw.1 ≠ "" then [waw.1] else [])
  let after := post_with_phase st.match_clauses_after_with
    st.where_after_match_after_with st.match_clauses alias_map2 inst_map1 waw.2
  let alias_map3 := after.2.1
  let parts5 := parts4 ++ after.1
  let parts6 := parts5 ++
    (if ¬ st.remove_clauses.isEmpty then
      ["REMOVE " ++ ", ".intercalate
        (st.remove_clauses.map (render_remove_item alias_map3))]
    else [])
  let rc2 := derived_return_clauses st.returns_explicitly_set st.return_clauses
    st.match_clauses st.entities
  let ret_alias_map := return_phase_alias_map st.with_called
    st.match_clauses_after_with st.match_clauses st.entities alias_map3
  let parts7 := parts6 ++
    (if ¬ rc2.isEmpty then
      ["RETURN " ++ (if st.distinct then "DISTINCT " else "") ++
        ", ".intercalate (rc2.map (render_return_expr st.with_called ret_alias_map))]
    else [])
  let parts8 := parts7 ++
    (if ¬ st.order_by_clauses.isEmpty then
      ["ORDER BY " ++ ", ".intercalate
        (st.order_by_clauses.map (fun o => order_by_to_cypher o ret_alias_map))]
    else [])
  let parts9 := parts8 ++
    (match st.skip_value with
     | some n => ["SKIP " ++ toString n]
     | none => [])
  let parts10 := parts9 ++
    (match st.limit_value with
     | some n => ["LIMIT " ++ toString n]
     | none => [])
  (" ".intercalate parts10,
   { st with params := after.2.2.2, alias_map := after.2.2.1, return_clauses := rc2 })

/-- Helper adding one class alias to the delete-target list with the
`not in` duplicate check. -/
def add_delete_target (acc : List String) : MItem → List String
  | .cls c =>
    let al := get_alias_for_entity (.cls c)
    if acc.contains al then acc else acc ++ [al]
  | _ => acc

/-- The delete-target extraction loop of `Delete.to_cypher` (lines 114-148):
`OPTIONAL`/`RAW` entries are skipped; triples contribute src, edge and dst
aliases in that order; single classes contribute their alias; duplicates are
dropped. -/
def delete_targets_from_match (clauses : List MatchClause) : List String :=
  clauses.foldl (fun acc mc =>
    match mc with
    | .optionalM _ => acc
    | .raw _ => acc
    | .plain m =>
      match m with
      | .triple src edge dst =>
        add_delete_target (add_delete_target (add_delete_target acc src) edge) dst
      | _ => add_delete_target acc m) []

/-- The full delete-target resolution of `Delete.to_cypher`: match-derived
targets first, then the `_entities` fallback (where non-class entities are
`str`-ed), and finally the generic placeholder `"n"`. -/
def delete_resolve_targets (clauses : List MatchClause)
    (entities : List MItem) : List String :=
  let fromMatch := delete_targets_from_match clauses
  let withEntities :=
    if fromMatch.isEmpty ∧ ¬ entities.isEmpty then
      entities.foldl (fun acc e =>
        match e with
        | .cls c =>
          let al := get_alias_for_entity (.cls c)
          if acc.contains al then acc else acc ++ [al]
        | _ =>
          let s := pyStrMItem e
          if acc.contains s then acc else acc ++ [s]) fromMatch
    else fromMatch
  if withEntities.isEmpty then ["n"] else withEntities

/-- Rendering of one RETURN-clause entry in `Delete.to_cypher` (which has no
bare-label shortcut for labelled functions). -/
def render_return_expr_delete (alias_map : AliasMap) : RetItem → String
  | .item (.str s) => s
  | .fnR f => function_to_cypher f alias_map
  | .item (.cls c) =>
    match c.aliasAttr with
    | some a => a
    | none => get_alias_for_entity (.cls c)
  | .item m => pyStrMItem m

/-- The mutable state of a `Delete` statement. -/
structure DeleteState where
  entities : List MItem
  match_clauses : List MatchClause
  where_clauses : List WhereCond
  with_clauses : List WithItem
  params : Params
  alias_map : AliasMap
  detach : Bool
  return_clauses : List RetItem

/-- A freshly constructed `Delete()` with everything empty. -/
def freshDelete : DeleteState where
  entities := []
  match_clauses := []
  where_clauses := []
  with_clauses := []
  params := []
  alias_map := []
  detach := false
  return_clauses := []

/-- `Delete.to_cypher` from `graphorm/delete.py`: lower match patterns (with
the `_entities` fallback), then either take the WITH branch (which reads the
instance alias map) or build the alias map inline from the match clauses
(the inline loop is the `include_edges=False` walk), serialize WHERE,
resolve the delete targets with the `"n"` fallback, emit
`DELETE`/`DETACH DELETE` and the optional RETURN. -/
def delete_to_cypher (st : DeleteState) : String × DeleteState :=
  let cp := collect_patterns st.match_clauses
  let match_patterns := match_patterns_with_fallback st.match_clauses st.entities
  let parts1 :=
    (if ¬ match_patterns.isEmpty then
      ["MATCH " ++ ", ".intercalate match_patterns] else [])
    ++ cp.2.map (fun p => "OPTIONAL MATCH " ++ p)
  let with_str := build_with_clause st.with_clauses st.alias_map
  let branch :=
    if with_str ≠ "" then ([with_str], st.alias_map, st.alias_map)
    else
      let am1 := alias_map_with_fallback false st.match_clauses st.entities
      ([], am1, pyDictUpdate st.alias_map am1)
  let alias_mapW := branch.2.1
  let parts2 := parts1 ++ branch.1
  let wb := build_where_clause st.match_clauses alias_mapW st.where_clauses st.params
  let parts3 := parts2 ++ (if wb.1 ≠ "" then [wb.1] else [])
  let targets := delete_resolve_targets st.match_clauses st.entities
  let kw := if st.detach then "DETACH DELETE" else "DELETE"
  let parts4 := parts3 ++ [kw ++ " " ++ ", ".intercalate targets]
  let parts5 := parts4 ++
    (if ¬ st.return_clauses.isEmpty then
      ["RETURN " ++ ", ".intercalate
        (st.return_clauses.map (render_return_expr_delete alias_mapW))]
    else [])
  (" ".intercalate parts5, { st with params := wb.2, alias_map := branch.2.2 })

/-- Decimal digit list of a natural number, big-endian: the closed-form
recursion satisfied by the digit accumulation inside `Nat.toDigitsCore`,
used to reason about the `param_N` names. -/
def decDigits (n : Nat) : List Char :=
  if _h : n < 10 then [Nat.digitChar n]
  else decDigits (n / 10) ++ [Nat.digitChar (n % 10)]
decreasing_by exact Nat.div_lt_self (by omega) (by omega)

/-- Parse a big-endian decimal digit list back to a number. -/
def parseDec (cs : List Char) : Nat :=
  cs.foldl (fun a c => a * 10 + (c.toNat - 48)) 0

/-- The claimed number of parameterized expressions inside one
expression tree: every serialized binary node except `IS NULL` /
`IS NOT NULL` counts. -/
def bexpr_param_vals : BExpr → List Value
  | .bin _ op v =>
    if op = "IS NULL" ∨ op = "IS NOT NULL" then [] else [v]
  | .andE l r => bexpr_param_vals l ++ bexpr_param_vals r
  | .orSingle l => bexpr_param_vals l
  | .orE l r => bexpr_param_vals l ++ bexpr_param_vals r

/-- Parameter values contributed, in serialization order, by a
where-clause list. -/
def where_conds_param_vals (cs : List WhereCond) : List Value :=
  cs.foldr (fun c acc =>
    match c with
    | .expr e => bexpr_param_vals e ++ acc
    | .rawW _ => acc) []

/-- Counter-indexed pure rendering of an expression tree, following the
spec's description of the parameter contract: the `i`-th parameterized
expression (left-to-right) references the placeholder `$param_(n0+i)`. -/
def spec_render_bexpr (alias_map : AliasMap) : BExpr → Nat → String
  | .bin left op _, n =>
    let ls := binary_left_str left alias_map
    if op = "IN" then ls ++ " IN $" ++ param_name n
    else if op = "NOT IN" then ls ++ " NOT IN $" ++ param_name n
    else if op = "=~" then ls ++ " =~ $" ++ param_name n
    else if op = "CONTAINS" then ls ++ " CONTAINS $" ++ param_name n
    else if op = "STARTS WITH" then ls ++ " STARTS WITH $" ++ param_name n
    else if op = "ENDS WITH" then ls ++ " ENDS WITH $" ++ param_name n
    else if op = "IS NULL" then ls ++ " IS NULL"
    else if op = "IS NOT NULL" then ls ++ " IS NOT NULL"
    else ls ++ " " ++ op ++ " $" ++ param_name n
  | .andE l r, n =>
    "(" ++ spec_render_bexpr alias_map l n ++ " AND " ++
      spec_render_bexpr alias_map r (n + (bexpr_param_vals l).length) ++ ")"
  | .orSingle l, n => spec_render_bexpr alias_map l n
  | .orE l r, n =>
    "(" ++ spec_render_bexpr alias_map l n ++ " OR " ++
      spec_render_bexpr alias_map r (n + (bexpr_param_vals l).length) ++ ")"

/-- Counter-indexed pure rendering of a where-clause list. -/
def spec_render_where_conds (alias_map : AliasMap) :
    List WhereCond → Nat → List String
  | [], _ => []
  | .expr e :: cs, n =>
    spec_render_bexpr alias_map e n ::
      spec_render_where_conds alias_map cs (n + (bexpr_param_vals e).length)
  | .rawW s :: cs, n => s :: spec_render_where_conds alias_map cs n

/-- The canonical parameter map claimed by the spec: values in
serialization order under the names `param_n0, param_(n0+1), ...`. -/
def canonical_params (n0 : Nat) : List Value → Params
  | [] => []
  | v :: vs => (param_name n0, v) :: canonical_params (n0 + 1) vs

/-- Per-item contribution of the RETURN auto-derivation walk: a triple
contributes its src and dst slots and never its edge, a single class
contributes itself, anything else contributes nothing. -/
def auto_return_contribution : MItem → List RetItem
  | .triple src _ dst => [.item src, .item dst]
  | .cls c => [.item (.cls c)]
  | _ => []

/-- Per-clause contribution of the RETURN auto-derivation walk: `RAW`
entries contribute nothing, plain and OPTIONAL items contribute their
item-level share. -/
def match_clause_return_contribution : MatchClause → List RetItem
  | .raw _ => []
  | .plain item => auto_return_contribution item
  | .optionalM item => auto_return_contribution item

/-- Per-item contribution of the matched-classes fallback walk: a triple
contributes its class-valued src and dst slots, a single class contributes
itself, anything else contributes nothing. -/
def matched_entities_contribution : MItem → List Cls
  | .triple src _ dst =>
    (match src with | .cls c => [c] | _ => []) ++
    (match dst with | .cls c => [c] | _ => [])
  | .cls c => [c]
  | _ => []

/-- Per-clause contribution of the matched-classes fallback walk. -/
def match_clause_entities_contribution : MatchClause → List Cls
  | .raw _ => []
  | .plain item => matched_entities_contribution item
  | .optionalM item => matched_entities_contribution item

/-- Escape of one character as the spec describes the literal formatter:
backslash and double quote are escaped, everything else passes through. -/
def spec_escape_char (c : Char) : String :=
  if c = Char.ofNat 92 then "\\\\"
  else if c = Char.ofNat 34 then "\\\x22"
  else String.singleton c

/-- Modelled from the spec: the string form of the literal formatter,
`double-quoted with backslash and quote escaped` in a single left-to-right
pass, with the empty string formatting to a bare pair of quotes. -/
def spec_quote_string (s : String) : String :=
  if s = "" then "\x22\x22"
  else "\x22" ++ (s.data.foldr (fun c acc => spec_escape_char c ++ acc) "") ++ "\x22"

/-- The names `graphorm/__init__.py` imports from `graphorm.expression`
(lines 14-35 of the source). -/
def init_import_names_from_expression : List String :=
  ["AndExpression", "ArithmeticExpression", "BinaryExpression",
   "CaseExpression", "Function", "OrderByExpression", "OrExpression",
   "RemoveExpression", "avg", "case", "count", "head", "indegree", "last",
   "max", "min", "outdegree", "size", "sum", "tail"]

/-- The top-level names defined by `graphorm/expression.py`: its six classes
and its module-level convenience functions (plus the two `typing` imports
that are module attributes as well). -/
def expression_module_top_level_names : List String :=
  ["BinaryExpression", "AndExpression", "OrExpression", "OrderByExpression",
   "ArithmeticExpression", "Function", "count", "sum", "avg", "min", "max",
   "indegree", "outdegree", "Any", "Dict"]

/-- Every class name defined anywhere in the `graphorm` package source
(top-level and nested `class` statements across all modules). -/
def graphorm_class_names : List String :=
  ["CommonMetaclass", "_AliasDescriptor", "Common", "Driver", "GraphMixin",
   "Relationship", "Path", "Edge", "Property", "PropertiesValidator",
   "DefaultPropertiesValidator", "PropertiesManager", "BinaryExpression",
   "AndExpression", "OrExpression", "OrderByExpression",
   "ArithmeticExpression", "Function", "RedisDriver", "Dialect",
   "FalkorDBDialect", "GraphORMError", "NodeNotFoundError",
   "EdgeNotFoundError", "QueryExecutionError", "ConnectionError",
   "_Registry", "Delete", "Statement", "Select", "AliasedNode", "Graph",
   "Transaction", "VariableLength", "CMD", "Node", "NodeMixin", "EdgeMixin"]

/-- The exception classes defined by `graphorm/exceptions.py`. -/
def exceptions_module_class_names : List String :=
  ["GraphORMError", "NodeNotFoundError", "EdgeNotFoundError",
   "QueryExecutionError", "ConnectionError"]

/-- Semantics of Python `from m import n1, ..., nk`: the import succeeds
exactly when every requested name is an attribute of the module; otherwise
`ImportError` is raised at the first missing name. -/
def from_import_ok (requested defined : List String) : Bool :=
  requested.all (fun n => defined.contains n)

/-- The `Page` node class of the end-to-end scenario: a `Node` subclass named
`Page` with no explicit `__label__` override. -/
def pageBase : BaseCls :=
  { cid := 0, name := "Page", label := none, hasLabels := true,
    relationName := none, relation := none }

/-- `aliased(Page, "p")`: an aliased subclass of `Page` with `_alias = "p"`. -/
def aliasedPage : Cls := .aliasedCls 1 pageBase "p"

/-- The `Property` returned by the class-attribute access `p.path` on the
aliased class. -/
def page_path_property : PropertyRef :=
  { node_class := aliasedPage, name := "path", palias := none }

/-- The C3 scenario: `select().match(p).where(p.path == "/home")` on a fresh
statement. -/
def select_page_scenario : SelectState :=
  { freshSelect with
    match_clauses := [.plain (.cls aliasedPage)],
    where_clauses :=
      [.expr (.bin (.propL page_path_property) "=" (.str "/home"))] }

/-- The `User` node class of the WITH-aggregate scenario. -/
def userBase : BaseCls :=
  { cid := 10, name := "User", label := none, hasLabels := true,
    relationName := none, relation := none }

/-- The `FRIEND` edge class (its `__relation__` is set by
`Edge.__init_subclass__` from the class name). -/
def friendBase : BaseCls :=
  { cid := 20, name := "FRIEND", label := none, hasLabels := false,
    relationName := none, relation := some "FRIEND" }

/-- `User.alias("a")`. -/
def userA : Cls := .aliasedCls 11 userBase "a"

/-- `User.alias("b")`. -/
def userB : Cls := .aliasedCls 12 userBase "b"

/-- `FRIEND.alias("r2")`. -/
def friendR2 : Cls := .aliasedCls 21 friendBase "r2"

/-- `count(FRIEND.alias("r2")).label("c")`: an aggregate call labelled `c`
over the aliased edge (the function name is upper-cased at construction). -/
def count_c_function : Func :=
  { name := "COUNT", args := [.clsA friendR2], flabel := some "c" }

/-- The C4 scenario: match `(a)-[r2:FRIEND]->(b)`, project `b` and the
labelled aggregate through `with_()`, then `where(<aggregate> > 2)` (routed
to the post-WITH where list because `with_()` already ran). -/
def with_aggregate_scenario : SelectState :=
  { freshSelect with
    match_clauses := [.plain (.triple (.cls userA) (.cls friendR2) (.cls userB))],
    with_clauses := [.clsW userB, .fnW count_c_function],
    with_called := true,
    where_after_with :=
      [.expr (.bin (.fnL count_c_function) ">" (.int 2))] }

/-- The `Linked` edge class used by the variable-length scenarios. -/
def linkedBase : BaseCls :=
  { cid := 30, name := "Linked", label := none, hasLabels := false,
    relationName := none, relation := some "Linked" }

/-- The C8 counterexample scenario: `delete().returns("x")` — no match
items, no entities, but an explicit RETURN clause. -/
def delete_returns_scenario : DeleteState :=
  { freshDelete with return_clauses := [.item (.str "x")] }

/-- A `Select` statement built by the fluent methods alone: fresh instance
state (`_params`, `_alias_map`, `_return_clauses` empty) with the given
accumulator lists. -/
def builder_state (mc mc2 : List MatchClause) (wi : List WithItem)
    (wc : Bool) (ws1 ws2 ws3 : List WhereCond) : SelectState :=
  { freshSelect with
    match_clauses := mc, where_clauses := ws1, with_clauses := wi,
    with_called := wc, where_after_with := ws2,
    match_clauses_after_with := mc2, where_after_match_after_with := ws3 }

/-- A `Select` whose clause lists can hold only non-parameter-emitting
content: match items, entities, ordering, paging and DISTINCT, with empty
where/with/remove lists. -/
def no_param_state (mc : List MatchClause) (ent : List MItem)
    (ob : List OrderByExpr) (sk lim : Option Int) (dist : Bool) : SelectState :=
  { freshSelect with
    match_clauses := mc, entities := ent, order_by_clauses := ob,
    skip_value := sk, limit_value := lim, distinct := dist }

/-- The compiled text of a where/with/remove-free `Select`, spelled as a
function of the already-derived RETURN list, so that idempotence of the
compile reduces to idempotence of the RETURN derivation and alias maps. -/
def no_param_text (mc : List MatchClause) (ent : List MItem)
    (ob : List OrderByExpr) (sk lim : Option Int) (dist : Bool)
    (rc2 : List RetItem) : String :=
  let cp := collect_patterns mc
  let match_patterns := match_patterns_with_fallback mc ent
  let parts1 :=
    (if ¬ match_patterns.isEmpty then
      ["MATCH " ++ ", ".intercalate match_patterns] else [])
    ++ cp.2.map (fun p => "OPTIONAL MATCH " ++ p)
  let ret_alias_map := alias_map_with_fallback true mc ent
  let parts7 := parts1 ++
    (if ¬ rc2.isEmpty then
      ["RETURN " ++ (if dist then "DISTINCT " else "") ++
        ", ".intercalate (rc2.map (render_return_expr false ret_alias_map))]
    else [])
  let parts8 := parts7 ++
    (if ¬ ob.isEmpty then
      ["ORDER BY " ++ ", ".intercalate
        (ob.map (fun o => order_by_to_cypher o ret_alias_map))]
    else [])
  let parts9 := parts8 ++
    (match sk with | some n => ["SKIP " ++ toString n] | none => [])
  let parts10 := parts9 ++
    (match lim with | some n => ["LIMIT " ++ toString n] | none => [])
  " ".intercalate parts10

/-- The parameter values a single compile of `builder_state` serializes, in
phase order: pre-WITH wheres, post-WITH wheres, then the wheres after a
post-WITH match (which are serialized only when such a match exists). -/
def serialized_param_vals (mc2 : List MatchClause)
    (ws1 ws2 ws3 : List WhereCond) : List Value :=
  where_conds_param_vals ws1 ++ where_conds_param_vals ws2 ++
    (if mc2.isEmpty then [] else if ws3.isEmpty then []
     else where_conds_param_vals ws3)

/-- Whether a character can occur in a Python identifier. -/
def isPyIdentChar (c : Char) : Bool :=
  c.isAlphanum || c = Char.ofNat 95

/-- Whether a string is a single bare identifier. -/
def isPyIdent (s : String) : Bool :=
  s ≠ "" && s.data.all isPyIdentChar

/-- Helper splitting a character list on spaces (the semantics of Python
`text.split(" ")`). -/
def splitSpacesAux : List Char → List Char → List String
  | [], cur => [String.mk cur.reverse]
  | c :: cs, cur =>
    if c = Char.ofNat 32 then
      String.mk cur.reverse :: splitSpacesAux cs []
    else splitSpacesAux cs (c :: cur)

/-- Python `text.split(" ")`. -/
def splitSpaces (s : String) : List String :=
  splitSpacesAux s.data []

/-- Modelled from the spec: the compiled text `ends with the delete keyword
followed by exactly one identifier` — the last whitespace token is one bare
identifier, preceded by `DELETE` (and by `DETACH` before that when the
detach variant is claimed). -/
def claim_c8_text_ends (detach : Bool) (text : String) : Bool :=
  match (splitSpaces text).reverse with
  | ident :: kw :: rest =>
    isPyIdent ident && (kw == "DELETE") &&
      (if detach then rest.head? == some "DETACH" else true)
  | _ => false

theorem py_replace_char_data (s : String) (c : Char) (r : String) :
    (py_replace_char s c r).data =
      s.data.foldr (fun ch acc => (if ch = c then r.data else [ch]) ++ acc) [] := by
  cases s with | mk l =>
  induction l with
  | nil => rfl
  | cons ch l ih =>
    show ((if ch = c then r else String.singleton ch) ++
      py_replace_char (String.mk l) c r).data = _
    rw [String.data_append]
    by_cases h : ch = c <;> simp [h, ih, String.singleton]

theorem foldr_escape_init {f : Char → List Char} (l : List Char) (b : List Char) :
    l.foldr (fun ch acc => f ch ++ acc) b =
      l.foldr (fun ch acc => f ch ++ acc) [] ++ b := by
  induction l with
  | nil => rfl
  | cons ch l ih => simp [ih]

theorem spec_fold_data (l : List Char) :
    (l.foldr (fun c acc => spec_escape_char c ++ acc) "").data =
      l.foldr (fun c acc => (spec_escape_char c).data ++ acc) [] := by
  induction l with
  | nil => rfl
  | cons ch l ih => simp [String.data_append, ih]

theorem quote_escape_data (l : List Char) :
    (l.foldr (fun ch acc =>
        (if ch = Char.ofNat 92 then ("\\\\" : String).data else [ch]) ++ acc) []).foldr
      (fun ch acc => (if ch = Char.ofNat 34 then ("\\\x22" : String).data else [ch]) ++ acc) []
      = l.foldr (fun c acc => (spec_escape_char c).data ++ acc) [] := by
  induction l with
  | nil => rfl
  | cons ch l ih =>
    simp only [List.foldr_cons]
    rw [List.foldr_append, foldr_escape_init, ih]
    congr 1
    by_cases h92 : ch = Char.ofNat 92
    · subst h92; decide
    · by_cases h34 : ch = Char.ofNat 34
      · subst h34; simp [h92]; decide
      · simp [spec_escape_char, h92, h34]

theorem quote_string_eq_spec (s : String) : quote_string s = spec_quote_string s := by
  by_cases h : s = ""
  · subst h; rfl
  · have hlen : s.length ≠ 0 := by
      cases s with | mk l =>
      cases l with
      | nil => exact absurd rfl h
      | cons a m => simp [String.length]
    unfold quote_string spec_quote_string
    rw [if_neg hlen, if_neg h]
    apply String.ext
    simp only [String.data_append]
    congr 1
    rw [py_replace_char_data, py_replace_char_data, spec_fold_data, quote_escape_data]

theorem intercalate_go_cons (s a b : String) (l : List String) :
    String.intercalate.go a s (b :: l) = a ++ s ++ String.intercalate.go b s l := by
  induction l generalizing a b with
  | nil => simp [String.intercalate.go]
  | cons c l ih =>
    rw [String.intercalate.go, ih, ih]
    simp [String.append_assoc]

theorem intercalate_cons₂ (s a b : String) (l : List String) :
    s.intercalate (a :: b :: l) = a ++ s ++ s.intercalate (b :: l) := by
  simp [String.intercalate, intercalate_go_cons]

theorem formatValueJoin_eq (vs : List Value) :
    formatValueJoin vs = ",".intercalate (vs.map format_cypher_value) := by
  match vs with
  | [] => rfl
  | [v] => simp [formatValueJoin, String.intercalate, String.intercalate.go]
  | v :: w :: vs =>
    rw [show formatValueJoin (v :: w :: vs) =
      format_cypher_value v ++ "," ++ formatValueJoin (w :: vs) from rfl,
      formatValueJoin_eq (w :: vs)]
    simp [intercalate_cons₂, String.append_assoc]

theorem formatValueJoinKV_eq (kvs : List (String × Value)) :
    formatValueJoinKV kvs =
      ",".intercalate (kvs.map (fun kv => kv.1 ++ ":" ++ format_cypher_value kv.2)) := by
  match kvs with
  | [] => rfl
  | [(k, v)] => simp [formatValueJoinKV, String.intercalate, String.intercalate.go]
  | (k, v) :: kw :: kvs =>
    rw [show formatValueJoinKV ((k, v) :: kw :: kvs) =
      k ++ ":" ++ format_cypher_value v ++ "," ++ formatValueJoinKV (kw :: kvs) from rfl,
      formatValueJoinKV_eq (kw :: kvs)]
    simp [intercalate_cons₂, String.append_assoc]

/-- C9: the literal formatter maps `None` to `null`, booleans to lowercase
unquoted `true`/`false`, a string to its double-quoted form with backslash
and double-quote escaped (the empty string to a bare quote pair), a list to
`[v1,v2,...]` with recursively formatted elements, and a map to
`{k1:v1,...}` with unquoted keys and recursively formatted values; in
particular `[1,"a"]` formats to `[1,"a"]`. -/
theorem claim_C9 :
    format_cypher_value .null = "null"
    ∧ format_cypher_value (.bool true) = "true"
    ∧ format_cypher_value (.bool false) = "false"
    ∧ (∀ s : String, format_cypher_value (.str s) = spec_quote_string s)
    ∧ format_cypher_value (.str "") = "\x22\x22"
    ∧ (∀ vs : List Value, format_cypher_value (.list vs) =
        "[" ++ ",".intercalate (vs.map format_cypher_value) ++ "]")
    ∧ (∀ kvs : List (String × Value), format_cypher_value (.dict kvs) =
        "\x7b" ++ ",".intercalate
          (kvs.map (fun kv => kv.1 ++ ":" ++ format_cypher_value kv.2)) ++ "\x7d")
    ∧ format_cypher_value (.list [.int 1, .str "a"]) = "[1,\x22a\x22]" :=
  ⟨rfl, rfl, rfl,
   fun s => quote_string_eq_spec s,
   rfl,
   fun vs => by rw [format_cypher_value, formatValueJoin_eq],
   fun kvs => by rw [format_cypher_value, formatValueJoinKV_eq],
   by decide⟩

/-- C5: a `VariableLength` edge in a triple lowers to an alias-free segment
`[:RELATION<suffix>]` where the suffix is `*` when both bounds are unset,
`*N` when both are set and equal, `*MIN..MAX` when both are set and unequal,
and `*MIN..` when only the minimum is set; in particular bounds `(1,3)`
give `*1..3`, `(None,None)` gives `*`, `(2,2)` gives `*2` and `(1,None)`
gives `*1..`. -/
theorem claim_C5 :
    (∀ v : VariableLength,
      edge_to_match_pattern (.varLen v) = some (variable_length_edge_to_pattern v)
      ∧ (v.min_hops = none → v.max_hops = none →
          variable_length_edge_to_pattern v =
            "[:" ++ get_relation_from_class v.edge_class ++ "*]")
      ∧ (∀ n : Int, v.min_hops = some n → v.max_hops = some n →
          variable_length_edge_to_pattern v =
            "[:" ++ get_relation_from_class v.edge_class ++ "*" ++ toString n ++ "]")
      ∧ (∀ mn mx : Int, v.min_hops = some mn → v.max_hops = some mx → mn ≠ mx →
          variable_length_edge_to_pattern v =
            "[:" ++ get_relation_from_class v.edge_class ++ "*" ++ toString mn ++
              ".." ++ toString mx ++ "]")
      ∧ (∀ mn : Int, v.min_hops = some mn → v.max_hops = none →
          variable_length_edge_to_pattern v =
            "[:" ++ get_relation_from_class v.edge_class ++ "*" ++ toString mn ++ "..]"))
    ∧ variable_length_edge_to_pattern ⟨.base linkedBase, some 1, some 3⟩ = "[:Linked*1..3]"
    ∧ variable_length_edge_to_pattern ⟨.base linkedBase, none, none⟩ = "[:Linked*]"
    ∧ variable_length_edge_to_pattern ⟨.base linkedBase, some 2, some 2⟩ = "[:Linked*2]"
    ∧ variable_length_edge_to_pattern ⟨.base linkedBase, some 1, none⟩ = "[:Linked*1..]" := by
  refine ⟨fun v => ⟨rfl, ?_, ?_, ?_, ?_⟩, by decide, by decide, by decide, by decide⟩
  · intro h1 h2
    simp [variable_length_edge_to_pattern, h1, h2, String.append_assoc]
  · intro n h1 h2
    simp [variable_length_edge_to_pattern, h1, h2, String.append_assoc]
  · intro mn mx h1 h2 hne
    simp [variable_length_edge_to_pattern, h1, h2, hne, String.append_assoc]
  · intro mn h1 h2
    simp [variable_length_edge_to_pattern, h1, h2, String.append_assoc]

/-- Witness for `claim_C5` at concrete bounds discharging each hypothesis. -/
theorem claim_C5_witness :
    variable_length_edge_to_pattern ⟨.base linkedBase, none, none⟩ = "[:Linked*]"
    ∧ variable_length_edge_to_pattern ⟨.base linkedBase, some 2, some 2⟩ = "[:Linked*2]"
    ∧ variable_length_edge_to_pattern ⟨.base linkedBase, some 1, some 3⟩ =
        "[:Linked*" ++ toString (1 : Int) ++ ".." ++ toString (3 : Int) ++ "]"
    ∧ variable_length_edge_to_pattern ⟨.base linkedBase, some 1, none⟩ = "[:Linked*1..]" :=
  ⟨by
    have h := (claim_C5.1 ⟨.base linkedBase, none, none⟩).2.1 rfl rfl
    simpa using h,
   by
    have h := (claim_C5.1 ⟨.base linkedBase, some 2, some 2⟩).2.2.1 2 rfl rfl
    simpa using h,
   by
    have h := (claim_C5.1 ⟨.base linkedBase, some 1, some 3⟩).2.2.2.1 1 3 rfl rfl (by decide)
    simpa using h,
   by
    have h := (claim_C5.1 ⟨.base linkedBase, some 1, none⟩).2.2.2.2 1 rfl rfl
    simpa using h⟩

/-- C10: the package entry module imports `CaseExpression` and
`RemoveExpression` from the expression module, but neither name (nor the
also-imported `case`, `head`, `last`, `size`, `tail`) is defined there — nor
is any class of either name defined anywhere in the package — so the
from-import fails and every import of the package's top level raises
`ImportError`, leaving no importable CASE/REMOVE serializer symbols. -/
theorem claim_C10 :
    "CaseExpression" ∈ init_import_names_from_expression
    ∧ "RemoveExpression" ∈ init_import_names_from_expression
    ∧ "CaseExpression" ∉ expression_module_top_level_names
    ∧ "RemoveExpression" ∉ expression_module_top_level_names
    ∧ "CaseExpression" ∉ graphorm_class_names
    ∧ "RemoveExpression" ∉ graphorm_class_names
    ∧ from_import_ok init_import_names_from_expression
        expression_module_top_level_names = false := by
  refine ⟨by decide, by decide, by decide, by decide, by decide, by decide, by decide⟩

/-- C7 counterexample: constructing `VariableLength(Linked, 1, 0)` (inverted
bounds) raises `ValueError`, not `ConfigurationError` — no class named
`ConfigurationError` exists in the package's exception module or anywhere
else in the source. -/
theorem claim_C7_counterexample :
    variable_length_init (.base linkedBase) (some 1) (some 0) =
      .error (.valueError "min_hops must be <= max_hops")
    ∧ "ConfigurationError" ∉ exceptions_module_class_names
    ∧ "ConfigurationError" ∉ graphorm_class_names := by
  refine ⟨rfl, by decide, by decide⟩

/-- C7 as amended: the bad-descriptor checks are exactly as claimed — an
`Edge` subclass whose explicit relation-name override is empty or not a
string, and a `VariableLength` with a negative bound or an inverted range,
are rejected at declaration/construction time — but with the built-in
`ValueError`, not a `ConfigurationError` (which the package does not
define); and the compile entry points are total functions that never raise
such errors. -/
theorem claim_C7_amended :
    (∀ ec mn mx, variable_length_init ec (some mn) (some mx) =
        (if mn < 0 then .error (.valueError "min_hops must be >= 0")
         else if mx < 0 then .error (.valueError "max_hops must be >= 0")
         else if mn > mx then .error (.valueError "min_hops must be <= max_hops")
         else .ok ⟨ec, some mn, some mx⟩))
    ∧ (∀ ec, variable_length_init ec none none = .ok ⟨ec, none, none⟩)
    ∧ (∀ ec mn, mn ≥ 0 → variable_length_init ec (some mn) none = .ok ⟨ec, some mn, none⟩)
    ∧ (∀ cid name s, s ≠ "" →
        edge_init_subclass cid name (some (.str s)) =
          .ok { cid := cid, name := name, label := none, hasLabels := false,
                relationName := some s, relation := some s })
    ∧ (∀ cid name,
        edge_init_subclass cid name (some (.str "")) =
          .error (.valueError
            ("__relation_name__ must be a non-empty string for class " ++ name)))
    ∧ (∀ cid name n, edge_init_subclass cid name (some (.int n)) =
        .error (.valueError
          ("__relation_name__ must be a non-empty string for class " ++ name)))
    ∧ (∀ st : SelectState, ∃ q st2, select_to_cypher st = (q, st2))
    ∧ (∀ st : DeleteState, ∃ q st2, delete_to_cypher st = (q, st2)) := by
  refine ⟨?_, fun ec => rfl, ?_, ?_, ?_, ?_,
    fun st => ⟨_, _, rfl⟩, fun st => ⟨_, _, rfl⟩⟩
  · intro ec mn mx
    by_cases h1 : mn < 0
    · simp [variable_length_init, h1]
    · by_cases h2 : mx < 0
      · simp [variable_length_init, h1, h2]
      · by_cases h3 : mn > mx
        · simp [variable_length_init, h1, h2, h3]
        · simp [variable_length_init, h1, h2, h3]
  · intro ec mn h
    simp [variable_length_init, Int.not_lt.mpr h]
  · intro cid name s h
    simp [edge_init_subclass, pyTruthy, Value.isStr, h, pyStr]
  · intro cid name
    simp [edge_init_subclass, pyTruthy, Value.isStr]
  · intro cid name n
    simp [edge_init_subclass, pyTruthy, Value.isStr]

/-- Witness for `claim_C7_amended`: concrete constructions discharging the
hypotheses. -/
theorem claim_C7_witness :
    variable_length_init (.base linkedBase) (some 1) none =
      .ok ⟨.base linkedBase, some 1, none⟩
    ∧ edge_init_subclass 40 "Rel" (some (.str "KNOWS")) =
      .ok { cid := 40, name := "Rel", label := none, hasLabels := false,
            relationName := some "KNOWS", relation := some "KNOWS" } :=
  ⟨claim_C7_amended.2.2.1 (.base linkedBase) 1 (by decide),
   claim_C7_amended.2.2.2.1 40 "Rel" "KNOWS" (by decide)⟩

theorem intercalate_append_last (ps : List String) (x : String) :
    ∃ pre, " ".intercalate (ps ++ [x]) = pre ++ x := by
  induction ps with
  | nil =>
    exact ⟨"", by simp [String.intercalate, String.intercalate.go]⟩
  | cons p ps ih =>
    obtain ⟨pre, hpre⟩ := ih
    cases ps with
    | nil =>
      exact ⟨p ++ " ", by simp [intercalate_cons₂, String.intercalate,
        String.intercalate.go, String.append_assoc]⟩
    | cons q qs =>
      refine ⟨p ++ " " ++ pre, ?_⟩
      rw [List.cons_append, List.cons_append, intercalate_cons₂]
      rw [List.cons_append] at hpre
      rw [hpre]
      simp [String.append_assoc]

theorem intercalate_append_last' (ps : List String) (x y : String) (hxy : x = y) :
    ∃ pre, " ".intercalate (ps ++ [x]) = pre ++ y := by
  subst hxy; exact intercalate_append_last ps x

/-- C8 counterexample: `delete().returns("x")` has no resolvable target from
match items or entities, yet its compiled text is `DELETE n RETURN x`,
which does not end with the delete keyword followed by one identifier. -/
theorem claim_C8_counterexample :
    (delete_to_cypher delete_returns_scenario).1 = "DELETE n RETURN x"
    ∧ delete_targets_from_match delete_returns_scenario.match_clauses = []
    ∧ delete_returns_scenario.entities = []
    ∧ claim_c8_text_ends false (delete_to_cypher delete_returns_scenario).1 = false := by
  refine ⟨by decide, rfl, rfl, by decide⟩

/-- C8 as amended: a `Delete` whose match items yield no target, with no
explicit entities and no RETURN clause, still compiles, resolves the single
generic placeholder target `n`, and its text ends with the delete keyword
(`DETACH DELETE` under `detach()`) followed by that one identifier; the
resolved delete-target list is non-empty for every `Delete` state. -/
theorem claim_C8_amended :
    (∀ st : DeleteState,
      delete_targets_from_match st.match_clauses = [] →
      st.entities = [] →
      st.return_clauses = [] →
      delete_resolve_targets st.match_clauses st.entities = ["n"]
      ∧ ∃ pre, (delete_to_cypher st).1 =
          pre ++ (if st.detach then "DETACH DELETE n" else "DELETE n"))
    ∧ (∀ st : DeleteState,
        delete_resolve_targets st.match_clauses st.entities ≠ []) := by
  constructor
  · intro st h1 h2 h3
    have htargets : delete_resolve_targets st.match_clauses st.entities = ["n"] := by
      unfold delete_resolve_targets
      rw [h1, h2]
      simp
    refine ⟨htargets, ?_⟩
    unfold delete_to_cypher
    rw [htargets, h3]
    simp only [List.isEmpty_nil, Bool.not_true, Bool.false_eq_true,
      not_false_eq_true, reduceIte, List.append_nil, if_false, ite_false,
      not_true, if_neg, List.isEmpty_eq_true]
    by_cases hd : st.detach
    · rw [hd]
      simp only [if_true, reduceIte]
      refine intercalate_append_last' _ _ _ ?_
      decide
    · rw [Bool.not_eq_true] at hd
      rw [hd]
      simp only [Bool.false_eq_true, if_false, reduceIte]
      refine intercalate_append_last' _ _ _ ?_
      decide
  · intro st
    unfold delete_resolve_targets
    by_cases h : (if (delete_targets_from_match st.match_clauses).isEmpty = true ∧
        ¬st.entities.isEmpty = true then
          st.entities.foldl (fun acc e =>
            match e with
            | .cls c =>
              let al := get_alias_for_entity (.cls c)
              if acc.contains al then acc else acc ++ [al]
            | _ =>
              let s := pyStrMItem e
              if acc.contains s then acc else acc ++ [s])
            (delete_targets_from_match st.match_clauses)
        else delete_targets_from_match st.match_clauses).isEmpty
    · simp only [h, if_true]
      simp
    · simp only [h, Bool.false_eq_true, if_false]
      intro hfalse
      rw [hfalse] at h
      simp at h

/-- Witness for `claim_C8_amended` at the fresh `Delete()` statement. -/
theorem claim_C8_witness :
    delete_resolve_targets freshDelete.match_clauses freshDelete.entities = ["n"]
    ∧ (∃ pre, (delete_to_cypher freshDelete).1 =
        pre ++ (if freshDelete.detach then "DETACH DELETE n" else "DELETE n"))
    ∧ delete_resolve_targets freshDelete.match_clauses freshDelete.entities ≠ [] :=
  ⟨(claim_C8_amended.1 freshDelete rfl rfl rfl).1,
   (claim_C8_amended.1 freshDelete rfl rfl rfl).2,
   claim_C8_amended.2 freshDelete⟩

/-- C4 at the claim's scenario (an aggregate `count` over an aliased edge
labelled `c` projected through `with_()`, then `where(<aggregate> > 2)`):
the compiled text places the WITH clause strictly before the WHERE clause,
but the WHERE clause re-serializes the labelled function call —
`COUNT(aliasedfriend) AS c > $param_0` — instead of referencing the bare
label `c`. -/
theorem claim_C4_eval :
    (select_to_cypher with_aggregate_scenario).1 =
      "MATCH (a:User)-[r2:FRIEND]->(b:User) WITH b, COUNT(aliasedfriend) AS c WHERE COUNT(aliasedfriend) AS c > $param_0 RETURN a, b"
    ∧ (∃ pre post, (select_to_cypher with_aggregate_scenario).1 =
        pre ++ "WITH b, COUNT(aliasedfriend) AS c" ++ " " ++
          "WHERE COUNT(aliasedfriend) AS c > $param_0" ++ post)
    ∧ (select_to_cypher with_aggregate_scenario).1 ≠
        "MATCH (a:User)-[r2:FRIEND]->(b:User) WITH b, COUNT(aliasedfriend) AS c WHERE c > $param_0 RETURN a, b"
    ∧ (select_to_cypher with_aggregate_scenario).2.params = [("param_0", .int 2)] :=
  ⟨by decide,
   ⟨"MATCH (a:User)-[r2:FRIEND]->(b:User) ", " RETURN a, b", by decide⟩,
   by decide,
   rfl⟩

/-- C3: the Page scenario (a Select over a single entity with explicit alias
`p`, node label `Page`, and one equality where-filter on field `path` against
the string `/home`) compiles to text containing `MATCH (p:Page)` and
`WHERE p.path = $param_0`, with params {param_0: "/home"}. -/
theorem claim_C3 :
    (∃ l r, (select_to_cypher select_page_scenario).1 =
      l ++ "MATCH (p:Page)" ++ r) ∧
    (∃ l r, (select_to_cypher select_page_scenario).1 =
      l ++ "WHERE p.path = $param_0" ++ r) ∧
    (select_to_cypher select_page_scenario).2.params =
      [("param_0", .str "/home")] :=
  ⟨⟨"", " WHERE p.path = $param_0 RETURN p", by decide⟩,
   ⟨"MATCH (p:Page) ", " RETURN p", by decide⟩,
   rfl⟩

/-- C1 counterexample: compiling the single-filter scenario twice with no
mutation in between renumbers the placeholder (`$param_0` then `$param_1`),
so the two texts differ and the second compile extends the params map. -/
theorem claim_C1_counterexample :
    (select_to_cypher select_page_scenario).1 =
      "MATCH (p:Page) WHERE p.path = $param_0 RETURN p"
    ∧ (select_to_cypher (select_to_cypher select_page_scenario).2).1 =
      "MATCH (p:Page) WHERE p.path = $param_1 RETURN p"
    ∧ (select_to_cypher (select_to_cypher select_page_scenario).2).1 ≠
      (select_to_cypher select_page_scenario).1
    ∧ (select_to_cypher select_page_scenario).2.params =
      [("param_0", .str "/home")]
    ∧ (select_to_cypher (select_to_cypher select_page_scenario).2).2.params =
      [("param_0", .str "/home"), ("param_1", .str "/home")] :=
  ⟨by decide, by decide, by decide, rfl, rfl⟩

theorem decDigits_small (n : Nat) (h : n < 10) : decDigits n = [Nat.digitChar n] := by
  rw [decDigits]
  simp [h]

theorem decDigits_large (n : Nat) (h : ¬ n < 10) :
    decDigits n = decDigits (n / 10) ++ [Nat.digitChar (n % 10)] := by
  rw [decDigits]
  simp [h]

theorem toDigitsCore_eq_decDigits (fuel n : Nat) (acc : List Char) (h : n < fuel) :
    Nat.toDigitsCore 10 fuel n acc = decDigits n ++ acc := by
  induction fuel generalizing n acc with
  | zero => omega
  | succ fuel ih =>
    rw [Nat.toDigitsCore]
    by_cases h0 : n / 10 = 0
    · have hn : n < 10 := by omega
      have hmod : n % 10 = n := Nat.mod_eq_of_lt hn
      simp [h0, decDigits_small n hn, hmod]
    · have hn10 : 10 ≤ n := by
        by_contra hc
        exact h0 (Nat.div_eq_of_lt (by omega))
      have hlt : n / 10 < fuel := by
        have := Nat.div_lt_self (by omega : 0 < n) (by omega : 1 < 10)
        omega
      simp only [h0, if_false]
      rw [ih (n / 10) _ hlt, decDigits_large n (by omega)]
      simp

theorem repr_eq_decDigits (n : Nat) : Nat.repr n = (decDigits n).asString := by
  show (Nat.toDigits 10 n).asString = _
  rw [Nat.toDigits, toDigitsCore_eq_decDigits (n + 1) n [] (Nat.lt_succ_self n)]
  simp

theorem parseDec_append (l : List Char) (c : Char) :
    parseDec (l ++ [c]) = parseDec l * 10 + (c.toNat - 48) := by
  simp [parseDec, List.foldl_append]

theorem parseDec_decDigits (n : Nat) : parseDec (decDigits n) = n := by
  induction n using Nat.strong_induction_on with
  | _ n ih =>
    by_cases h : n < 10
    · rw [decDigits_small n h]
      interval_cases n <;> decide
    · rw [decDigits_large n h, parseDec_append]
      rw [ih (n / 10) (Nat.div_lt_self (by omega) (by omega))]
      have hm : n % 10 < 10 := Nat.mod_lt n (by omega)
      have hdigit : (Nat.digitChar (n % 10)).toNat - 48 = n % 10 := by
        interval_cases hh : n % 10 <;> decide
      rw [hdigit]
      omega

theorem nat_repr_injective {m n : Nat} (h : Nat.repr m = Nat.repr n) : m = n := by
  rw [repr_eq_decDigits, repr_eq_decDigits] at h
  have hdata : decDigits m = decDigits n := by
    have := congrArg String.data h
    simpa [List.asString] using this
  have := congrArg parseDec hdata
  rwa [parseDec_decDigits, parseDec_decDigits] at this

theorem param_name_injective {m n : Nat} (h : param_name m = param_name n) : m = n := by
  unfold param_name at h
  have hdata := congrArg String.data h
  simp only [String.data_append] at hdata
  have : (Nat.repr m).data = (Nat.repr n).data := List.append_cancel_left hdata
  exact nat_repr_injective (String.ext this)

theorem canonical_params_length (n : Nat) (vs : List Value) :
    (canonical_params n vs).length = vs.length := by
  induction vs generalizing n with
  | nil => rfl
  | cons v vs ih => simp [canonical_params, ih]

theorem canonical_params_append (n : Nat) (vs ws : List Value) :
    canonical_params n (vs ++ ws) =
      canonical_params n vs ++ canonical_params (n + vs.length) ws := by
  induction vs generalizing n with
  | nil => simp [canonical_params]
  | cons v vs ih =>
    simp only [List.cons_append, canonical_params, List.length_cons, List.append_eq]
    rw [ih, show n + 1 + vs.length = n + (vs.length + 1) by omega]

theorem canonical_params_key_bound (n : Nat) (vs : List Value) (k : Nat)
    (h : (canonical_params n vs).any (fun kv => kv.1 == param_name k) = true) :
    n ≤ k ∧ k < n + vs.length := by
  induction vs generalizing n with
  | nil => simp [canonical_params] at h
  | cons v vs ih =>
    simp only [canonical_params, List.any_cons, Bool.or_eq_true] at h
    rcases h with h | h
    · have heq : param_name n = param_name k := by
        simpa using h
      have := param_name_injective heq
      subst this
      simp only [List.length_cons]
      omega
    · have := ih (n + 1) h
      constructor
      · omega
      · simp only [List.length_cons]
        omega

theorem pyDictSet_canonical_fresh (vs : List Value) (v : Value) :
    pyDictSet (canonical_params 0 vs) (param_name vs.length) v =
      canonical_params 0 vs ++ [(param_name vs.length, v)] := by
  unfold pyDictSet
  have : (canonical_params 0 vs).any (fun kv => kv.1 == param_name vs.length) = false := by
    by_contra h
    rw [Bool.not_eq_false] at h
    have := canonical_params_key_bound 0 vs vs.length h
    omega
  rw [this]
  simp

theorem add_param_to_dict_canonical (vs : List Value) (v : Value) :
    add_param_to_dict v (canonical_params 0 vs) =
      (param_name vs.length, canonical_params 0 (vs ++ [v])) := by
  unfold add_param_to_dict
  rw [canonical_params_length, pyDictSet_canonical_fresh]
  rw [canonical_params_append]
  simp [canonical_params]

theorem bexpr_to_cypher_canonical (am : AliasMap) (e : BExpr) :
    ∀ vs : List Value,
    bexpr_to_cypher e (canonical_params 0 vs) am =
      (spec_render_bexpr am e vs.length,
       canonical_params 0 (vs ++ bexpr_param_vals e)) := by
  induction e with
  | bin left op right =>
    intro vs
    simp only [bexpr_to_cypher, spec_render_bexpr, bexpr_param_vals]
    by_cases h1 : op = "IN"
    · simp [h1, add_param_to_dict_canonical]
    · by_cases h2 : op = "NOT IN"
      · simp [h1, h2, add_param_to_dict_canonical]
      · by_cases h3 : op = "=~"
        · simp [h1, h2, h3, add_param_to_dict_canonical]
        · by_cases h4 : op = "CONTAINS"
          · simp [h1, h2, h3, h4, add_param_to_dict_canonical]
          · by_cases h5 : op = "STARTS WITH"
            · simp [h1, h2, h3, h4, h5, add_param_to_dict_canonical]
            · by_cases h6 : op = "ENDS WITH"
              · simp [h1, h2, h3, h4, h5, h6, add_param_to_dict_canonical]
              · by_cases h7 : op = "IS NULL"
                · simp [h1, h2, h3, h4, h5, h6, h7]
                · by_cases h8 : op = "IS NOT NULL"
                  · simp [h1, h2, h3, h4, h5, h6, h7, h8]
                  · simp [h1, h2, h3, h4, h5, h6, h7, h8,
                      add_param_to_dict_canonical]
  | andE l r ihl ihr =>
    intro vs
    simp only [bexpr_to_cypher, spec_render_bexpr, bexpr_param_vals]
    rw [ihl vs]
    simp only []
    rw [ihr (vs ++ bexpr_param_vals l)]
    simp [List.append_assoc, List.length_append]
  | orE l r ihl ihr =>
    intro vs
    simp only [bexpr_to_cypher, spec_render_bexpr, bexpr_param_vals]
    rw [ihl vs]
    simp only []
    rw [ihr (vs ++ bexpr_param_vals l)]
    simp [List.append_assoc, List.length_append]
  | orSingle l ihl =>
    intro vs
    simp only [bexpr_to_cypher, spec_render_bexpr, bexpr_param_vals]
    exact ihl vs

theorem where_fold_canonical (am : AliasMap) (cs : List WhereCond) :
    ∀ (vs : List Value) (parts0 : List String),
    cs.foldl (fun (acc : List String × Params) c =>
      match c with
      | .expr e =>
        let (s, ps) := bexpr_to_cypher e acc.2 am
        (acc.1 ++ [s], ps)
      | .rawW s => (acc.1 ++ [s], acc.2)) (parts0, canonical_params 0 vs) =
    (parts0 ++ spec_render_where_conds am cs vs.length,
     canonical_params 0 (vs ++ where_conds_param_vals cs)) := by
  induction cs with
  | nil =>
    intro vs parts0
    simp [spec_render_where_conds, where_conds_param_vals]
  | cons c cs ih =>
    intro vs parts0
    match c with
    | .expr e =>
      simp only [List.foldl_cons]
      rw [bexpr_to_cypher_canonical am e vs]
      simp only []
      rw [ih (vs ++ bexpr_param_vals e) (parts0 ++ [spec_render_bexpr am e vs.length])]
      simp [spec_render_where_conds, where_conds_param_vals,
        List.append_assoc, List.length_append]
    | .rawW s =>
      simp only [List.foldl_cons]
      rw [ih vs (parts0 ++ [s])]
      simp [spec_render_where_conds, where_conds_param_vals, List.append_assoc]

theorem build_where_clause_canonical (mc : List MatchClause) (amArg : AliasMap)
    (cs : List WhereCond) (vs : List Value) :
    build_where_clause mc amArg cs (canonical_params 0 vs) =
      ((if cs.isEmpty then "" else
        "WHERE " ++ " AND ".intercalate
          (spec_render_where_conds (where_effective_alias_map mc amArg)
            cs vs.length)),
       canonical_params 0 (vs ++ where_conds_param_vals cs)) := by
  unfold build_where_clause
  by_cases h : cs.isEmpty
  · have : cs = [] := by
      cases cs with
      | nil => rfl
      | cons a b => simp at h
    subst this
    simp [where_conds_param_vals]
  · rw [if_neg h, if_neg h]
    dsimp only
    rw [where_fold_canonical]
    simp

theorem build_where_clause_params (mc : List MatchClause) (amArg : AliasMap)
    (cs : List WhereCond) (vs : List Value) :
    (build_where_clause mc amArg cs (canonical_params 0 vs)).2 =
      canonical_params 0 (vs ++ where_conds_param_vals cs) := by
  rw [build_where_clause_canonical]

theorem intercalate_mem_decomp (s : String) (l : List String) (a : String)
    (ha : a ∈ l) : ∃ p q, s.intercalate l = p ++ a ++ q := by
  induction l with
  | nil => cases ha
  | cons b l ih =>
    cases l with
    | nil =>
      rcases List.mem_singleton.mp ha with rfl
      exact ⟨"", "", by simp [String.intercalate, String.intercalate.go]⟩
    | cons c l2 =>
      rcases List.mem_cons.mp ha with rfl | hmem
      · exact ⟨"", s ++ s.intercalate (c :: l2), by
          rw [intercalate_cons₂]
          simp [String.append_assoc]⟩
      · obtain ⟨p, q, hpq⟩ := ih hmem
        refine ⟨b ++ s ++ p, q, ?_⟩
        rw [intercalate_cons₂, hpq]
        simp [String.append_assoc]

theorem string_contains_compose {t a m x y p q : String}
    (h1 : t = p ++ a ++ q) (h2 : a = x ++ m ++ y) :
    t = (p ++ x) ++ m ++ (y ++ q) := by
  subst h2
  subst h1
  simp [String.append_assoc]

theorem where_prefix_ne_empty (x : String) : ("WHERE " ++ x) ≠ "" := by
  intro h
  have := congrArg String.data h
  simp [String.data_append] at this

theorem spec_render_bexpr_placeholder (am : AliasMap) (e : BExpr) :
    ∀ n i, i < (bexpr_param_vals e).length →
    ∃ x y, spec_render_bexpr am e n = x ++ ("$" ++ param_name (n + i)) ++ y := by
  induction e with
  | bin left op right =>
    intro n i hi
    simp only [bexpr_param_vals] at hi
    by_cases hnull : op = "IS NULL" ∨ op = "IS NOT NULL"
    · simp [hnull] at hi
    · simp only [hnull, if_false, List.length_cons, List.length_nil] at hi
      have hi0 : i = 0 := by omega
      subst hi0
      push_neg at hnull
      obtain ⟨h7, h8⟩ := hnull
      simp only [spec_render_bexpr]
      by_cases h1 : op = "IN"
      · refine ⟨binary_left_str left am ++ " IN ", "", ?_⟩
        simp [h1, String.append_assoc]
        rw [show (" IN $" : String) = " IN " ++ "$" from by decide]
        simp only [String.append_assoc, String.append_empty]
      · by_cases h2 : op = "NOT IN"
        · refine ⟨binary_left_str left am ++ " NOT IN ", "", ?_⟩
          simp [h1, h2, String.append_assoc]
          rw [show (" NOT IN $" : String) = " NOT IN " ++ "$" from by decide]
          simp only [String.append_assoc, String.append_empty]
        · by_cases h3 : op = "=~"
          · refine ⟨binary_left_str left am ++ " =~ ", "", ?_⟩
            simp [h1, h2, h3, String.append_assoc]
            rw [show (" =~ $" : String) = " =~ " ++ "$" from by decide]
            simp only [String.append_assoc, String.append_empty]
          · by_cases h4 : op = "CONTAINS"
            · refine ⟨binary_left_str left am ++ " CONTAINS ", "", ?_⟩
              simp [h1, h2, h3, h4, String.append_assoc]
              rw [show (" CONTAINS $" : String) = " CONTAINS " ++ "$" from by decide]
              simp only [String.append_assoc, String.append_empty]
            · by_cases h5 : op = "STARTS WITH"
              · refine ⟨binary_left_str left am ++ " STARTS WITH ", "", ?_⟩
                simp [h1, h2, h3, h4, h5, String.append_assoc]
                rw [show (" STARTS WITH $" : String) = " STARTS WITH " ++ "$" from by decide]
                simp only [String.append_assoc, String.append_empty]
              · by_cases h6 : op = "ENDS WITH"
                · refine ⟨binary_left_str left am ++ " ENDS WITH ", "", ?_⟩
                  simp [h1, h2, h3, h4, h5, h6, String.append_assoc]
                  rw [show (" ENDS WITH $" : String) = " ENDS WITH " ++ "$" from by decide]
                  simp only [String.append_assoc, String.append_empty]
                · refine ⟨binary_left_str left am ++ " " ++ op ++ " ", "", ?_⟩
                  simp [h1, h2, h3, h4, h5, h6, h7, h8, String.append_assoc]
                  rw [show (" $" : String) = " " ++ "$" from by decide]
                  simp only [String.append_assoc, String.append_empty]
  | andE l r ihl ihr =>
    intro n i hi
    simp only [bexpr_param_vals, List.length_append] at hi
    simp only [spec_render_bexpr]
    by_cases hil : i < (bexpr_param_vals l).length
    · obtain ⟨x, y, hxy⟩ := ihl n i hil
      refine ⟨"(" ++ x, y ++ " AND " ++
        spec_render_bexpr am r (n + (bexpr_param_vals l).length) ++ ")", ?_⟩
      rw [hxy]
      simp [String.append_assoc]
    · have hir : i - (bexpr_param_vals l).length < (bexpr_param_vals r).length := by omega
      obtain ⟨x, y, hxy⟩ := ihr (n + (bexpr_param_vals l).length)
        (i - (bexpr_param_vals l).length) hir
      rw [show n + (bexpr_param_vals l).length + (i - (bexpr_param_vals l).length)
        = n + i from by omega] at hxy
      refine ⟨"(" ++ spec_render_bexpr am l n ++ " AND " ++ x, y ++ ")", ?_⟩
      rw [hxy]
      simp [String.append_assoc]
  | orE l r ihl ihr =>
    intro n i hi
    simp only [bexpr_param_vals, List.length_append] at hi
    simp only [spec_render_bexpr]
    by_cases hil : i < (bexpr_param_vals l).length
    · obtain ⟨x, y, hxy⟩ := ihl n i hil
      refine ⟨"(" ++ x, y ++ " OR " ++
        spec_render_bexpr am r (n + (bexpr_param_vals l).length) ++ ")", ?_⟩
      rw [hxy]
      simp [String.append_assoc]
    · have hir : i - (bexpr_param_vals l).length < (bexpr_param_vals r).length := by omega
      obtain ⟨x, y, hxy⟩ := ihr (n + (bexpr_param_vals l).length)
        (i - (bexpr_param_vals l).length) hir
      rw [show n + (bexpr_param_vals l).length + (i - (bexpr_param_vals l).length)
        = n + i from by omega] at hxy
      refine ⟨"(" ++ spec_render_bexpr am l n ++ " OR " ++ x, y ++ ")", ?_⟩
      rw [hxy]
      simp [String.append_assoc]
  | orSingle l ihl =>
    intro n i hi
    simp only [bexpr_param_vals] at hi
    simp only [spec_render_bexpr]
    exact ihl n i hi

theorem where_conds_vals_cons_expr (e : BExpr) (cs : List WhereCond) :
    where_conds_param_vals (.expr e :: cs) =
      bexpr_param_vals e ++ where_conds_param_vals cs := rfl

theorem where_conds_vals_cons_raw (s : String) (cs : List WhereCond) :
    where_conds_param_vals (.rawW s :: cs) = where_conds_param_vals cs := rfl

theorem spec_render_where_conds_placeholder (am : AliasMap) (cs : List WhereCond) :
    ∀ n i, i < (where_conds_param_vals cs).length →
    ∃ part, part ∈ spec_render_where_conds am cs n ∧
      ∃ x y, part = x ++ ("$" ++ param_name (n + i)) ++ y := by
  induction cs with
  | nil =>
    intro n i hi
    simp [where_conds_param_vals] at hi
  | cons c cs ih =>
    intro n i hi
    match c with
    | .expr e =>
      rw [where_conds_vals_cons_expr, List.length_append] at hi
      by_cases hil : i < (bexpr_param_vals e).length
      · obtain ⟨x, y, hxy⟩ := spec_render_bexpr_placeholder am e n i hil
        exact ⟨spec_render_bexpr am e n, List.mem_cons_self _ _, x, y, hxy⟩
      · have hir : i - (bexpr_param_vals e).length <
            (where_conds_param_vals cs).length := by omega
        obtain ⟨part, hmem, x, y, hxy⟩ :=
          ih (n + (bexpr_param_vals e).length) (i - (bexpr_param_vals e).length) hir
        rw [show n + (bexpr_param_vals e).length + (i - (bexpr_param_vals e).length)
          = n + i from by omega] at hxy
        exact ⟨part, List.mem_cons_of_mem _ hmem, x, y, hxy⟩
    | .rawW s =>
      rw [where_conds_vals_cons_raw] at hi
      obtain ⟨part, hmem, x, y, hxy⟩ := ih n i hi
      exact ⟨part, List.mem_cons_of_mem _ hmem, x, y, hxy⟩

theorem where_clause_string_placeholder (am : AliasMap) (cs : List WhereCond)
    (n i : Nat) (hi : i < (where_conds_param_vals cs).length) :
    ∃ x y, ("WHERE " ++ " AND ".intercalate (spec_render_where_conds am cs n))
      = x ++ ("$" ++ param_name (n + i)) ++ y := by
  obtain ⟨part, hmem, x, y, hxy⟩ := spec_render_where_conds_placeholder am cs n i hi
  obtain ⟨p, q, hpq⟩ := intercalate_mem_decomp " AND " _ part hmem
  refine ⟨"WHERE " ++ (p ++ x), y ++ q, ?_⟩
  rw [hpq, hxy]
  simp [String.append_assoc]

theorem post_with_phase_params (mc2 : List MatchClause) (ws3 : List WhereCond)
    (mc : List MatchClause) (am2 im1 : AliasMap) (p : Params) :
    (post_with_phase mc2 ws3 mc am2 im1 p).2.2.2 =
      if mc2.isEmpty then p
      else if ws3.isEmpty then p
      else (build_where_clause mc
        (pyDictUpdate am2 (build_alias_map_from_match_clauses false mc2))
        ws3 p).2 := by
  unfold post_with_phase
  by_cases h : mc2.isEmpty
  · simp [h]
  · rw [Bool.not_eq_true] at h
    simp only [h, Bool.false_eq_true, Bool.not_false, if_true, reduceIte,
      if_false]
    by_cases h3 : ws3.isEmpty
    · simp [h3]
    · rw [Bool.not_eq_true] at h3
      simp [h3]

theorem canonical_params_keys (n : Nat) (vs : List Value) :
    (canonical_params n vs).map Prod.fst =
      (List.range vs.length).map (fun i => param_name (n + i)) := by
  induction vs generalizing n with
  | nil => rfl
  | cons v vs ih =>
    simp only [canonical_params, List.map_cons, List.length_cons,
      List.range_succ_eq_map, List.map_map]
    rw [Nat.add_zero]
    congr 1
    · rw [ih (n + 1)]
      congr 1
      funext i
      simp only [Function.comp_apply]
      congr 1
      omega


theorem if_append_where_ne {α : Sort u} (x : String) (a b : α) :
    (if ("WHERE " ++ x) ≠ "" then a else b) = a := by
  rw [if_pos (where_prefix_ne_empty x)]

theorem if_where_prefix_eq_empty {α : Sort u} (x : String) (a b : α) :
    (if ("WHERE " ++ x) = "" then a else b) = b :=
  if_neg (where_prefix_ne_empty x)

theorem intercalate_contains_of_part (parts : List String) (w x m y : String)
    (hmem : w ∈ parts) (hw : w = x ++ m ++ y) :
    ∃ pre post, " ".intercalate parts = pre ++ m ++ post := by
  obtain ⟨p, q, hpq⟩ := intercalate_mem_decomp " " parts w hmem
  exact ⟨p ++ x, y ++ q, string_contains_compose hpq hw⟩

theorem select_where1_mem (mc mc2 : List MatchClause) (wi : List WithItem)
    (wc : Bool) (ws1 ws2 ws3 : List WhereCond) (h1 : ws1.isEmpty = false) :
    ∃ parts : List String,
      (select_to_cypher (builder_state mc mc2 wi wc ws1 ws2 ws3)).1 =
        " ".intercalate parts ∧
      ("WHERE " ++ " AND ".intercalate
        (spec_render_where_conds
          (where_effective_alias_map mc (alias_map_with_fallback false mc []))
          ws1 0)) ∈ parts := by
  unfold select_to_cypher builder_state freshSelect
  dsimp only
  rw [show ([] : Params) = canonical_params 0 [] from rfl,
    build_where_clause_canonical]
  dsimp only
  simp only [h1, Bool.false_eq_true, reduceIte, if_false, if_append_where_ne,
    List.length_nil]
  exact ⟨_, rfl, by simp⟩

theorem select_where2_mem (mc mc2 : List MatchClause) (wi : List WithItem)
    (wc : Bool) (ws1 ws2 ws3 : List WhereCond) (h2 : ws2.isEmpty = false) :
    ∃ parts : List String,
      (select_to_cypher (builder_state mc mc2 wi wc ws1 ws2 ws3)).1 =
        " ".intercalate parts ∧
      ("WHERE " ++ " AND ".intercalate
        (spec_render_where_conds
          (where_effective_alias_map mc
            (if build_with_clause wi (alias_map_with_fallback false mc []) ≠ ""
             then pyDictUpdate [] (alias_map_with_fallback false mc [])
             else alias_map_with_fallback false mc []))
          ws2 (where_conds_param_vals ws1).length)) ∈ parts := by
  unfold select_to_cypher builder_state freshSelect
  dsimp only
  rw [show ([] : Params) = canonical_params 0 [] from rfl,
    build_where_clause_canonical]
  dsimp only
  simp only [List.nil_append, List.length_nil]
  rw [build_where_clause_canonical]
  dsimp only
  simp only [h2, Bool.false_eq_true, reduceIte, if_false, if_append_where_ne]
  exact ⟨_, rfl, by simp⟩

theorem select_where3_mem (mc mc2 : List MatchClause) (wi : List WithItem)
    (wc : Bool) (ws1 ws2 ws3 : List WhereCond) (hm2 : mc2.isEmpty = false)
    (h3 : ws3.isEmpty = false) :
    ∃ parts : List String,
      (select_to_cypher (builder_state mc mc2 wi wc ws1 ws2 ws3)).1 =
        " ".intercalate parts ∧
      ("WHERE " ++ " AND ".intercalate
        (spec_render_where_conds
          (where_effective_alias_map mc
            (pyDictUpdate
              (if build_with_clause wi (alias_map_with_fallback false mc []) ≠ ""
               then pyDictUpdate [] (alias_map_with_fallback false mc [])
               else alias_map_with_fallback false mc [])
              (build_alias_map_from_match_clauses false mc2)))
          ws3 (where_conds_param_vals ws1 ++ where_conds_param_vals ws2).length))
        ∈ parts := by
  unfold select_to_cypher builder_state freshSelect post_with_phase
  dsimp only
  rw [show ([] : Params) = canonical_params 0 [] from rfl,
    build_where_clause_canonical]
  dsimp only
  simp only [List.nil_append, List.length_nil]
  rw [build_where_clause_canonical]
  simp only [hm2, h3, Bool.false_eq_true, Bool.not_false, reduceIte, if_false]
  rw [build_where_clause_canonical]
  simp only [h3, Bool.false_eq_true, reduceIte, if_false,
    if_append_where_ne, if_where_prefix_eq_empty]
  exact ⟨_, rfl, by simp [where_prefix_ne_empty]⟩

theorem where_conds_param_vals_nil : where_conds_param_vals [] = [] := rfl

theorem ws_nonempty_of_vals {ws : List WhereCond} {i : Nat}
    (h : i < (where_conds_param_vals ws).length) : ws.isEmpty = false := by
  cases ws with
  | nil => simp [where_conds_param_vals] at h
  | cons a b => rfl

/-- C2: a fresh statement built from arbitrary match clauses, WITH items and
where-condition lists in all three phases compiles with parameters named
exactly `param_0, ..., param_(k-1)` in the left-to-right order in which the
parameterized expressions are serialized across the phases, the params-map
keys are exactly that name sequence, and each placeholder `$param_i` occurs
in the query text. -/
theorem claim_C2 (mc mc2 : List MatchClause) (wi : List WithItem) (wc : Bool)
    (ws1 ws2 ws3 : List WhereCond) :
    (select_to_cypher (builder_state mc mc2 wi wc ws1 ws2 ws3)).2.params =
      canonical_params 0 (serialized_param_vals mc2 ws1 ws2 ws3)
    ∧ ((select_to_cypher (builder_state mc mc2 wi wc ws1 ws2 ws3)).2.params.map
        Prod.fst =
        (List.range (serialized_param_vals mc2 ws1 ws2 ws3).length).map param_name)
    ∧ (∀ i, i < (serialized_param_vals mc2 ws1 ws2 ws3).length →
        ∃ pre post, (select_to_cypher (builder_state mc mc2 wi wc ws1 ws2 ws3)).1 =
          pre ++ ("$" ++ param_name i) ++ post) := by
  have hparams : (select_to_cypher (builder_state mc mc2 wi wc ws1 ws2 ws3)).2.params =
      canonical_params 0 (serialized_param_vals mc2 ws1 ws2 ws3) := by
    unfold serialized_param_vals
    unfold select_to_cypher builder_state freshSelect
    dsimp only
    rw [post_with_phase_params]
    rw [show ([] : Params) = canonical_params 0 [] from rfl,
      build_where_clause_params, build_where_clause_params]
    by_cases h2 : mc2.isEmpty
    · simp [h2]
    · rw [Bool.not_eq_true] at h2
      simp only [h2, Bool.false_eq_true, reduceIte, if_false]
      by_cases h3 : ws3.isEmpty
      · have : ws3 = [] := by
          cases ws3 with
          | nil => rfl
          | cons a b => simp at h3
        subst this
        simp [where_conds_param_vals]
      · rw [Bool.not_eq_true] at h3
        simp only [h3, Bool.false_eq_true, reduceIte, if_false]
        rw [build_where_clause_params]
        simp [List.append_assoc]
  refine ⟨hparams, ?_, ?_⟩
  · rw [hparams, canonical_params_keys]
    simp
  · intro i hi
    unfold serialized_param_vals at hi
    rw [List.length_append, List.length_append] at hi
    by_cases hA : i < (where_conds_param_vals ws1).length
    · obtain ⟨parts, htext, hmem⟩ :=
        select_where1_mem mc mc2 wi wc ws1 ws2 ws3 (ws_nonempty_of_vals hA)
      obtain ⟨x, y, hxy⟩ := where_clause_string_placeholder
        (where_effective_alias_map mc (alias_map_with_fallback false mc []))
        ws1 0 i hA
      rw [Nat.zero_add] at hxy
      rw [htext]
      exact intercalate_contains_of_part parts _ x _ y hmem hxy
    · by_cases hB : i < (where_conds_param_vals ws1).length +
          (where_conds_param_vals ws2).length
      · have hi2 : i - (where_conds_param_vals ws1).length <
            (where_conds_param_vals ws2).length := by omega
        obtain ⟨parts, htext, hmem⟩ :=
          select_where2_mem mc mc2 wi wc ws1 ws2 ws3 (ws_nonempty_of_vals hi2)
        obtain ⟨x, y, hxy⟩ := where_clause_string_placeholder
          (where_effective_alias_map mc
            (if build_with_clause wi (alias_map_with_fallback false mc []) ≠ ""
             then pyDictUpdate [] (alias_map_with_fallback false mc [])
             else alias_map_with_fallback false mc []))
          ws2 (where_conds_param_vals ws1).length
          (i - (where_conds_param_vals ws1).length) hi2
        rw [show (where_conds_param_vals ws1).length +
          (i - (where_conds_param_vals ws1).length) = i from by omega] at hxy
        rw [htext]
        exact intercalate_contains_of_part parts _ x _ y hmem hxy
      · have hm2 : mc2.isEmpty = false := by
          by_contra hc
          rw [Bool.not_eq_false] at hc
          rw [hc] at hi
          simp at hi
          omega
        have hw3 : ws3.isEmpty = false := by
          by_contra hc
          rw [Bool.not_eq_false] at hc
          rw [hm2, hc] at hi
          simp at hi
          omega
        rw [hm2, hw3] at hi
        simp only [Bool.false_eq_true, reduceIte, if_false] at hi
        have hi3 : i - ((where_conds_param_vals ws1).length +
            (where_conds_param_vals ws2).length) <
            (where_conds_param_vals ws3).length := by omega
        obtain ⟨parts, htext, hmem⟩ :=
          select_where3_mem mc mc2 wi wc ws1 ws2 ws3 hm2 hw3
        obtain ⟨x, y, hxy⟩ := where_clause_string_placeholder
          (where_effective_alias_map mc
            (pyDictUpdate
              (if build_with_clause wi (alias_map_with_fallback false mc []) ≠ ""
               then pyDictUpdate [] (alias_map_with_fallback false mc [])
               else alias_map_with_fallback false mc [])
              (build_alias_map_from_match_clauses false mc2)))
          ws3 (where_conds_param_vals ws1 ++ where_conds_param_vals ws2).length
          (i - ((where_conds_param_vals ws1).length +
            (where_conds_param_vals ws2).length)) hi3
        rw [show (where_conds_param_vals ws1 ++ where_conds_param_vals ws2).length +
          (i - ((where_conds_param_vals ws1).length +
            (where_conds_param_vals ws2).length)) = i from by
          rw [List.length_append]; omega] at hxy
        rw [htext]
        exact intercalate_contains_of_part parts _ x _ y hmem hxy

/-- Witness for `claim_C2` at the single-filter scenario, discharging the
placeholder-index hypothesis at `i = 0`. -/
theorem claim_C2_witness :
    ((select_to_cypher (builder_state [.plain (.cls aliasedPage)] [] [] false
        [.expr (.bin (.propL page_path_property) "=" (.str "/home"))] [] [])).2.params =
      canonical_params 0 (serialized_param_vals []
        [.expr (.bin (.propL page_path_property) "=" (.str "/home"))] [] []))
    ∧ ∃ pre post,
        (select_to_cypher (builder_state [.plain (.cls aliasedPage)] [] [] false
          [.expr (.bin (.propL page_path_property) "=" (.str "/home"))] [] [])).1 =
          pre ++ ("$" ++ param_name 0) ++ post :=
  ⟨(claim_C2 [.plain (.cls aliasedPage)] [] [] false
      [.expr (.bin (.propL page_path_property) "=" (.str "/home"))] [] []).1,
   (claim_C2 [.plain (.cls aliasedPage)] [] [] false
      [.expr (.bin (.propL page_path_property) "=" (.str "/home"))] [] []).2.2 0
     (by decide)⟩

theorem pyDictSet_keys_sub {κ α : Type} [BEq κ] [LawfulBEq κ]
    (d : List (κ × α)) (k : κ) (v : α) :
    (pyDictSet d k v).map Prod.fst = d.map Prod.fst ∨
      (pyDictSet d k v).map Prod.fst = d.map Prod.fst ++ [k] := by
  unfold pyDictSet
  by_cases h : d.any (fun kv => kv.1 == k)
  · left
    rw [if_pos h]
    rw [List.map_map]
    apply List.map_congr_left
    intro kv _
    by_cases hk : kv.1 == k
    · simp [hk]
      exact (eq_of_beq hk).symm
    · simp [hk]
  · right
    rw [if_neg h]
    simp

theorem pyDictSet_nodup {κ α : Type} [BEq κ] [LawfulBEq κ]
    (d : List (κ × α)) (k : κ) (v : α)
    (hd : (d.map Prod.fst).Nodup) :
    ((pyDictSet d k v).map Prod.fst).Nodup := by
  unfold pyDictSet
  by_cases h : d.any (fun kv => kv.1 == k)
  · rw [if_pos h]
    have : (d.map (fun kv => if kv.1 == k then (k, v) else kv)).map Prod.fst =
        d.map Prod.fst := by
      rw [List.map_map]
      apply List.map_congr_left
      intro kv _
      by_cases hk : kv.1 == k
      · simp [hk]
        exact (eq_of_beq hk).symm
      · simp [hk]
    rw [this]
    exact hd
  · rw [if_neg h]
    rw [List.map_append]
    simp only [List.map_cons, List.map_nil]
    rw [List.nodup_append]
    refine ⟨hd, List.nodup_singleton k, ?_⟩
    intro a ha
    simp only [List.mem_singleton]
    intro hak
    subst hak
    rw [List.any_eq_true] at h
    apply h
    rw [List.mem_map] at ha
    obtain ⟨kv, hkv, hfst⟩ := ha
    exact ⟨kv, hkv, by simp [hfst]⟩

theorem add_to_alias_map_nodup (e : MItem) (m : AliasMap)
    (hm : (m.map Prod.fst).Nodup) :
    ((add_to_alias_map e m).map Prod.fst).Nodup := by
  unfold add_to_alias_map
  match e with
  | .cls (.aliasedCls cid b a) =>
    exact pyDictSet_nodup _ _ _ (pyDictSet_nodup _ _ _ hm)
  | .cls (.base b) =>
    by_cases h : b.hasLabels || b.relation.isSome
    · simp only [h, if_true]
      exact pyDictSet_nodup _ _ _ hm
    · simp only [h, Bool.false_eq_true, if_false]
      exact hm
  | .str s => exact hm
  | .varLen v => exact hm
  | .triple x y z => exact hm

theorem foldl_add_alias_nodup (items : List MItem) (m : AliasMap)
    (hm : (m.map Prod.fst).Nodup) :
    ((items.foldl (fun mm e => add_to_alias_map e mm) m).map Prod.fst).Nodup := by
  induction items generalizing m with
  | nil => exact hm
  | cons e items ih => exact ih _ (add_to_alias_map_nodup e m hm)

theorem build_alias_map_nodup (include_edges : Bool) (mc : List MatchClause) :
    ((build_alias_map_from_match_clauses include_edges mc).map Prod.fst).Nodup := by
  unfold build_alias_map_from_match_clauses
  suffices h : ∀ (m : AliasMap), (m.map Prod.fst).Nodup →
      ((mc.foldl (fun m mcl =>
        match mcl with
        | .raw _ => m
        | .plain item | .optionalM item =>
          match item with
          | .triple src edge dst =>
            let m1 := add_to_alias_map dst (add_to_alias_map src m)
            if include_edges then
              match edge with
              | .varLen _ => m1
              | _ => add_to_alias_map edge m1
            else m1
          | _ => add_to_alias_map item m) m).map Prod.fst).Nodup by
    exact h [] (by simp)
  induction mc with
  | nil => intro m hm; exact hm
  | cons c mc ih =>
    intro m hm
    simp only [List.foldl_cons]
    apply ih
    match c with
    | .raw s => exact hm
    | .plain item | .optionalM item =>
      match item with
      | .triple src edge dst =>
        by_cases h : include_edges
        · simp only [h, if_true]
          match edge with
          | .varLen v =>
            exact add_to_alias_map_nodup _ _ (add_to_alias_map_nodup _ _ hm)
          | .cls c2 =>
            exact add_to_alias_map_nodup _ _
              (add_to_alias_map_nodup _ _ (add_to_alias_map_nodup _ _ hm))
          | .str s =>
            exact add_to_alias_map_nodup _ _
              (add_to_alias_map_nodup _ _ (add_to_alias_map_nodup _ _ hm))
          | .triple a2 b2 c2 =>
            exact add_to_alias_map_nodup _ _
              (add_to_alias_map_nodup _ _ (add_to_alias_map_nodup _ _ hm))
        · simp only [h, if_false]
          exact add_to_alias_map_nodup _ _ (add_to_alias_map_nodup _ _ hm)
      | .cls c2 => exact add_to_alias_map_nodup _ _ hm
      | .str s => exact add_to_alias_map_nodup _ _ hm
      | .varLen v => exact add_to_alias_map_nodup _ _ hm

theorem alias_map_with_fallback_nodup (include_edges : Bool)
    (mc : List MatchClause) (ent : List MItem) :
    ((alias_map_with_fallback include_edges mc ent).map Prod.fst).Nodup := by
  unfold alias_map_with_fallback
  by_cases h : (build_alias_map_from_match_clauses include_edges mc).isEmpty
  · simp only [h, if_true, reduceIte]
    exact foldl_add_alias_nodup ent _ (by
      have := build_alias_map_nodup include_edges mc
      exact this)
  · simp only [h, Bool.false_eq_true, if_false, reduceIte]
    exact build_alias_map_nodup include_edges mc

theorem pyDictSet_mem_self {κ α : Type} [BEq κ] [LawfulBEq κ]
    (d : List (κ × α)) (k : κ) (v : α)
    (hd : (d.map Prod.fst).Nodup) (hin : (k, v) ∈ d) :
    pyDictSet d k v = d := by
  unfold pyDictSet
  have hany : d.any (fun kv => kv.1 == k) = true :=
    List.any_eq_true.mpr ⟨(k, v), hin, by simp⟩
  rw [if_pos hany]
  conv_rhs => rw [← List.map_id d]
  apply List.map_congr_left
  intro kv2 h2
  by_cases hbeq : kv2.1 = k
  · have hkv2 : kv2 = (k, v) :=
      List.inj_on_of_nodup_map hd h2 hin (by simpa using hbeq)
    simp [hkv2]
  · simp [hbeq]

theorem pyDictUpdate_subset {κ α : Type} [BEq κ] [LawfulBEq κ]
    (d : List (κ × α)) (e : List (κ × α))
    (hd : (d.map Prod.fst).Nodup) (he : ∀ kv ∈ e, kv ∈ d) :
    pyDictUpdate d e = d := by
  induction e with
  | nil => rfl
  | cons kv e ih =>
    unfold pyDictUpdate
    simp only [List.foldl_cons]
    rw [pyDictSet_mem_self d kv.1 kv.2 hd (by
      have := he kv (List.mem_cons_self _ _)
      simpa using this)]
    exact ih (fun kv2 h2 => he kv2 (List.mem_cons_of_mem _ h2))

theorem pyDictUpdate_self {κ α : Type} [BEq κ] [LawfulBEq κ]
    (m : List (κ × α)) (hm : (m.map Prod.fst).Nodup) :
    pyDictUpdate m m = m :=
  pyDictUpdate_subset m m hm (fun _ h => h)

theorem pyDictSet_fresh_append {κ α : Type} [BEq κ] [LawfulBEq κ]
    (d : List (κ × α)) (k : κ) (v : α)
    (hk : ¬ k ∈ d.map Prod.fst) :
    pyDictSet d k v = d ++ [(k, v)] := by
  unfold pyDictSet
  have hnone : d.any (fun kv => kv.1 == k) = false := by
    rw [List.any_eq_false]
    intro kv hkv hbeq
    apply hk
    rw [List.mem_map]
    exact ⟨kv, hkv, eq_of_beq hbeq⟩
  rw [hnone]
  simp

theorem pyDictUpdate_append_of_nodup {κ α : Type} [BEq κ] [LawfulBEq κ] :
    ∀ (m d : List (κ × α)), (d.map Prod.fst ++ m.map Prod.fst).Nodup →
      pyDictUpdate d m = d ++ m := by
  intro m
  induction m with
  | nil => intro d _; simp [pyDictUpdate]
  | cons kv m ih =>
    intro d hnd
    unfold pyDictUpdate
    simp only [List.foldl_cons]
    have hfresh : ¬ kv.1 ∈ d.map Prod.fst := by
      intro hmem
      rw [List.nodup_append] at hnd
      exact hnd.2.2 hmem (by simp)
    rw [pyDictSet_fresh_append d kv.1 kv.2 hfresh]
    have hnd2 : ((d ++ [(kv.1, kv.2)]).map Prod.fst ++ m.map Prod.fst).Nodup := by
      simpa [List.append_assoc] using hnd
    have hih := ih (d ++ [(kv.1, kv.2)]) hnd2
    unfold pyDictUpdate at hih
    rw [hih]
    simp

theorem pyDictUpdate_nil_of_nodup {κ α : Type} [BEq κ] [LawfulBEq κ]
    (m : List (κ × α)) (hm : (m.map Prod.fst).Nodup) :
    pyDictUpdate ([] : List (κ × α)) m = m := by
  have := pyDictUpdate_append_of_nodup m ([] : List (κ × α)) (by simpa using hm)
  simpa using this

theorem derived_aux_ne_nil (rc1 : List RetItem) (mc : List MatchClause) :
    (if rc1.isEmpty then
      (if ¬ (all_matched_entities mc).isEmpty then
        (all_matched_entities mc).map (fun c => RetItem.item (.cls c))
      else [RetItem.item (.str "*")])
    else rc1) ≠ [] := by
  by_cases h1 : rc1.isEmpty
  · rw [if_pos h1]
    by_cases h2 : (all_matched_entities mc).isEmpty
    · rw [if_neg (by simp [h2])]
      simp
    · rw [if_pos (by simp [h2])]
      intro hm
      rw [List.map_eq_nil_iff] at hm
      rw [hm] at h2
      simp at h2
  · rw [if_neg h1]
    intro hnil
    rw [hnil] at h1
    simp at h1

theorem derived_return_clauses_ne_nil (rs : Bool) (cur : List RetItem)
    (mc : List MatchClause) (ent : List MItem) :
    derived_return_clauses rs cur mc ent ≠ [] := by
  unfold derived_return_clauses
  dsimp only
  apply derived_aux_ne_nil

theorem derived_return_clauses_of_ne_nil (rs : Bool) (cur : List RetItem)
    (mc : List MatchClause) (ent : List MItem) (h : cur ≠ []) :
    derived_return_clauses rs cur mc ent = cur := by
  have hcur : cur.isEmpty = false := by
    cases cur with
    | nil => exact absurd rfl h
    | cons a l => rfl
  unfold derived_return_clauses
  dsimp only
  rw [if_neg (by simp [hcur])]
  rw [if_neg (by simp [hcur])]

theorem select_to_cypher_no_param (mc : List MatchClause) (ent : List MItem)
    (ob : List OrderByExpr) (sk lim : Option Int) (dist : Bool)
    (am0 : AliasMap) (rc0 : List RetItem) :
    select_to_cypher { no_param_state mc ent ob sk lim dist with
        alias_map := am0, return_clauses := rc0 } =
      (no_param_text mc ent ob sk lim dist
         (derived_return_clauses false rc0 mc ent),
       { no_param_state mc ent ob sk lim dist with
           alias_map := pyDictUpdate am0 (alias_map_with_fallback false mc ent),
           return_clauses := derived_return_clauses false rc0 mc ent }) := by
  unfold select_to_cypher no_param_text
  dsimp only [no_param_state, freshSelect]
  simp only [build_where_clause, build_with_clause, post_with_phase,
    return_phase_alias_map, List.isEmpty_nil, List.map_nil, List.append_nil,
    List.nil_append, ite_true, ite_false, ne_eq, not_true_eq_false,
    not_false_eq_true, if_true, if_false, reduceIte, String.reduceEq,
    Bool.false_eq_true, or_self, or_false, false_or]

/-- C1 (amended): compiling a `Select` twice is byte-identical and leaves the
statement state (params, alias map, return clauses) unchanged whenever the
compile serializes no parameterized expressions: for every statement built
from only match, entities, order, skip, limit and distinct, `to_cypher` run
a second time returns the
same text and the same state as the first. -/
theorem claim_C1_amended (mc : List MatchClause) (ent : List MItem)
    (ob : List OrderByExpr) (sk lim : Option Int) (dist : Bool) :
    (select_to_cypher (select_to_cypher (no_param_state mc ent ob sk lim dist)).2).1 =
      (select_to_cypher (no_param_state mc ent ob sk lim dist)).1 ∧
    (select_to_cypher (select_to_cypher (no_param_state mc ent ob sk lim dist)).2).2 =
      (select_to_cypher (no_param_state mc ent ob sk lim dist)).2 := by
  have e1 : select_to_cypher (no_param_state mc ent ob sk lim dist) =
      (no_param_text mc ent ob sk lim dist
         (derived_return_clauses false [] mc ent),
       { no_param_state mc ent ob sk lim dist with
           alias_map := pyDictUpdate [] (alias_map_with_fallback false mc ent),
           return_clauses := derived_return_clauses false [] mc ent }) :=
    select_to_cypher_no_param mc ent ob sk lim dist [] []
  have hRne : derived_return_clauses false [] mc ent ≠ [] :=
    derived_return_clauses_ne_nil false [] mc ent
  have hRfix : derived_return_clauses false
      (derived_return_clauses false [] mc ent) mc ent =
      derived_return_clauses false [] mc ent :=
    derived_return_clauses_of_ne_nil _ _ _ _ hRne
  have hAnodup := alias_map_with_fallback_nodup false mc ent
  have hAnil : pyDictUpdate ([] : AliasMap)
      (alias_map_with_fallback false mc ent) =
      alias_map_with_fallback false mc ent :=
    pyDictUpdate_nil_of_nodup _ hAnodup
  have hAself : pyDictUpdate (alias_map_with_fallback false mc ent)
      (alias_map_with_fallback false mc ent) =
      alias_map_with_fallback false mc ent :=
    pyDictUpdate_self _ hAnodup
  have h2 := select_to_cypher_no_param mc ent ob sk lim dist
    (pyDictUpdate [] (alias_map_with_fallback false mc ent))
    (derived_return_clauses false [] mc ent)
  rw [e1]
  dsimp only
  rw [h2, hRfix, hAnil, hAself]
  exact ⟨rfl, rfl⟩

theorem claim_C1_witness :
    (select_to_cypher (select_to_cypher (no_param_state
        [MatchClause.plain (.cls (.base pageBase))] [] [] none none false)).2).1 =
      (select_to_cypher (no_param_state
        [MatchClause.plain (.cls (.base pageBase))] [] [] none none false)).1 ∧
    (select_to_cypher (select_to_cypher (no_param_state
        [MatchClause.plain (.cls (.base pageBase))] [] [] none none false)).2).2 =
      (select_to_cypher (no_param_state
        [MatchClause.plain (.cls (.base pageBase))] [] [] none none false)).2 :=
  claim_C1_amended [MatchClause.plain (.cls (.base pageBase))] [] [] none none false

theorem auto_return_aux (ms : List MatchClause) (acc : List RetItem) :
    ms.foldl (fun acc mc =>
      match mc with
      | .raw _ => acc
      | .plain item | .optionalM item =>
        match item with
        | .triple src _ dst => acc ++ [.item src, .item dst]
        | .cls c => acc ++ [.item (.cls c)]
        | _ => acc) acc =
      acc ++ (ms.map match_clause_return_contribution).flatten := by
  induction ms generalizing acc with
  | nil => simp
  | cons c ms ih =>
    simp only [List.foldl_cons, List.map_cons, List.flatten_cons]
    rw [ih]
    match c with
    | .raw s =>
      simp [match_clause_return_contribution]
    | .plain item =>
      match item with
      | .triple a b d =>
        simp [match_clause_return_contribution, auto_return_contribution,
          List.append_assoc]
      | .cls cc =>
        simp [match_clause_return_contribution, auto_return_contribution,
          List.append_assoc]
      | .str s =>
        simp [match_clause_return_contribution, auto_return_contribution]
      | .varLen v =>
        simp [match_clause_return_contribution, auto_return_contribution]
    | .optionalM item =>
      match item with
      | .triple a b d =>
        simp [match_clause_return_contribution, auto_return_contribution,
          List.append_assoc]
      | .cls cc =>
        simp [match_clause_return_contribution, auto_return_contribution,
          List.append_assoc]
      | .str s =>
        simp [match_clause_return_contribution, auto_return_contribution]
      | .varLen v =>
        simp [match_clause_return_contribution, auto_return_contribution]

theorem auto_return_eq_flatten (ms : List MatchClause) :
    auto_return ms = (ms.map match_clause_return_contribution).flatten := by
  unfold auto_return
  rw [auto_return_aux]
  simp

theorem all_matched_aux (ms : List MatchClause) (acc : List Cls) :
    ms.foldl (fun acc mc =>
      match mc with
      | .raw _ => acc
      | .plain item | .optionalM item =>
        match item with
        | .triple src _ dst =>
          let acc1 := match src with | .cls c => acc ++ [c] | _ => acc
          (match dst with | .cls c => acc1 ++ [c] | _ => acc1)
        | .cls c => acc ++ [c]
        | _ => acc) acc =
      acc ++ (ms.map match_clause_entities_contribution).flatten := by
  induction ms generalizing acc with
  | nil => simp
  | cons c ms ih =>
    simp only [List.foldl_cons, List.map_cons, List.flatten_cons]
    rw [ih]
    match c with
    | .raw s =>
      simp [match_clause_entities_contribution]
    | .plain item =>
      match item with
      | .triple a b d =>
        cases a <;> cases d <;>
          simp [match_clause_entities_contribution,
            matched_entities_contribution, List.append_assoc]
      | .cls cc =>
        simp [match_clause_entities_contribution,
          matched_entities_contribution, List.append_assoc]
      | .str s =>
        simp [match_clause_entities_contribution, matched_entities_contribution]
      | .varLen v =>
        simp [match_clause_entities_contribution, matched_entities_contribution]
    | .optionalM item =>
      match item with
      | .triple a b d =>
        cases a <;> cases d <;>
          simp [match_clause_entities_contribution,
            matched_entities_contribution, List.append_assoc]
      | .cls cc =>
        simp [match_clause_entities_contribution,
          matched_entities_contribution, List.append_assoc]
      | .str s =>
        simp [match_clause_entities_contribution, matched_entities_contribution]
      | .varLen v =>
        simp [match_clause_entities_contribution, matched_entities_contribution]

theorem all_matched_entities_eq_flatten (ms : List MatchClause) :
    all_matched_entities ms =
      (ms.map match_clause_entities_contribution).flatten := by
  unfold all_matched_entities
  rw [all_matched_aux]
  simp

theorem all_matched_nil_of_auto_nil (ms : List MatchClause)
    (h : auto_return ms = []) : all_matched_entities ms = [] := by
  rw [auto_return_eq_flatten] at h
  rw [all_matched_entities_eq_flatten]
  rw [List.flatten_eq_nil_iff] at h
  rw [List.flatten_eq_nil_iff]
  intro l hl
  rw [List.mem_map] at hl
  obtain ⟨mcl, hmcl, rfl⟩ := hl
  have hc2 := h _ (List.mem_map_of_mem _ hmcl)
  match mcl with
  | .raw s => rfl
  | .plain item =>
    match item with
    | .triple a b d =>
      exact absurd hc2 (by
        simp [match_clause_return_contribution, auto_return_contribution])
    | .cls cc =>
      exact absurd hc2 (by
        simp [match_clause_return_contribution, auto_return_contribution])
    | .str s => rfl
    | .varLen v => rfl
  | .optionalM item =>
    match item with
    | .triple a b d =>
      exact absurd hc2 (by
        simp [match_clause_return_contribution, auto_return_contribution])
    | .cls cc =>
      exact absurd hc2 (by
        simp [match_clause_return_contribution, auto_return_contribution])
    | .str s => rfl
    | .varLen v => rfl

theorem derived_wildcard (ms : List MatchClause)
    (h : auto_return ms = []) :
    derived_return_clauses false [] ms [] = [RetItem.item (.str "*")] := by
  have hae := all_matched_nil_of_auto_nil ms h
  simp [derived_return_clauses, h, hae]

theorem derived_eq_auto_return (mc : List MatchClause) (ent : List MItem)
    (h : auto_return mc ≠ []) :
    derived_return_clauses false [] mc ent = auto_return mc := by
  have hmc : mc ≠ [] := by
    intro e
    subst e
    exact h rfl
  have har : (auto_return mc).isEmpty = false := by
    cases hh : auto_return mc with
    | nil => exact absurd hh h
    | cons a l => rfl
  have hmcE : mc.isEmpty = false := by
    cases mc with
    | nil => exact absurd rfl hmc
    | cons a l => rfl
  simp [derived_return_clauses, hmcE, har]

theorem mem_auto_return_of_mem (mc : List MatchClause) (c : Cls)
    (h : MatchClause.plain (.cls c) ∈ mc) :
    RetItem.item (.cls c) ∈ auto_return mc := by
  rw [auto_return_eq_flatten]
  rw [List.mem_flatten]
  exact ⟨[RetItem.item (.cls c)], List.mem_map_of_mem _ h,
    List.mem_singleton_self _⟩

/-- C6: when `returns()` was never invoked the RETURN clause is auto-derived
by walking the pre-WITH match items — the walk is the concatenation of
per-item contributions, where a triple contributes its src and dst and never
its edge, a single class contributes itself, and strings and RAW entries
contribute nothing; when the derived list and the entity fallback are both
empty the rendered RETURN list is the wildcard `*`; and for a statement with
a single-class match item the derived RETURN list holds that item, whose
rendering is exactly that item alias, which a no-parameter compile stores
back into the statement. -/
theorem claim_C6 (mc : List MatchClause) (ent : List MItem) (c : Cls)
    (h : MatchClause.plain (.cls c) ∈ mc) :
    (∀ ms : List MatchClause,
      auto_return ms = (ms.map match_clause_return_contribution).flatten) ∧
    (∀ ms : List MatchClause, ∀ am : AliasMap, auto_return ms = [] →
      (derived_return_clauses false [] ms []).map (render_return_expr false am)
        = ["*"]) ∧
    derived_return_clauses false [] mc ent = auto_return mc ∧
    RetItem.item (.cls c) ∈ derived_return_clauses false [] mc ent ∧
    (match c.aliasAttr with
      | some a => a
      | none => get_alias_for_entity (.cls c)) ∈
      (derived_return_clauses false [] mc ent).map
        (render_return_expr false (alias_map_with_fallback true mc ent)) ∧
    (select_to_cypher (no_param_state mc ent [] none none false)).2.return_clauses
      = derived_return_clauses false [] mc ent := by
  have hmem := mem_auto_return_of_mem mc c h
  have hne : auto_return mc ≠ [] := by
    intro e
    rw [e] at hmem
    exact List.not_mem_nil _ hmem
  have hderived := derived_eq_auto_return mc ent hne
  refine ⟨auto_return_eq_flatten, ?_, hderived, ?_, ?_, ?_⟩
  · intro ms am hms
    rw [derived_wildcard ms hms]
    rfl
  · rw [hderived]
    exact hmem
  · rw [hderived]
    exact List.mem_map_of_mem (render_return_expr false
      (alias_map_with_fallback true mc ent)) hmem
  · exact congrArg (fun p => p.2.return_clauses)
      (select_to_cypher_no_param mc ent [] none none false [] [])

theorem claim_C6_witness :
    RetItem.item (.cls (.base pageBase)) ∈
      derived_return_clauses false []
        [MatchClause.plain (.cls (.base pageBase))] [] :=
  (claim_C6 [MatchClause.plain (.cls (.base pageBase))] [] (.base pageBase)
    (List.mem_singleton_self _)).2.2.2.1
